import Mathlib

set_option maxRecDepth 100000
set_option maxHeartbeats 4000000

/-!
Verification of the vecno-testnet consensus components against their
specification.  The development shallowly embeds the Rust sources of
`consensus/pow` (proof-of-work verifier and memory-hard hash),
`components/connectionmanager` and the gRPC client response queue
(`rpc/grpc/client/src/resolver`) as executable Lean functions.

Machine integers are modelled as `Nat` with explicit reduction modulo
`2^8`, `2^32`, `2^64` or `2^256` at every point where the Rust code wraps;
byte strings are `List Nat` whose elements are below 256 by construction.
External cryptographic primitives used by the sources (BLAKE3, SHA3-256,
the ChaCha20 random stream of `rand_chacha`) are implemented from their
standard descriptions so that concrete evaluation inside proofs agrees
with the real functions.
-/

/-- Interpret a byte list as a little-endian natural number
(the embedding of `Uint256::from_le_bytes`). -/
def fromLeBytes (l : List Nat) : Nat :=
  l.foldr (fun b acc => b + 256 * acc) 0

/-- Little-endian bytes of a `u32` (the embedding of `u32::to_le_bytes`). -/
def toLeBytes4 (w : Nat) : List Nat :=
  [w % 256, w / 256 % 256, w / 65536 % 256, w / 16777216 % 256]

/-- Little-endian bytes of a `u64` (the embedding of `u64::to_le_bytes`). -/
def toLeBytes8 (w : Nat) : List Nat :=
  [w % 256, w / 256 % 256, w / 65536 % 256, w / 16777216 % 256,
   w / 4294967296 % 256, w / 1099511627776 % 256,
   w / 281474976710656 % 256, w / 72057594037927936 % 256]

/-- Little-endian bytes of a 256-bit value (the embedding of `Uint256::to_le_bytes`). -/
def u256ToLeBytes (w : Nat) : List Nat :=
  (List.range 32).map (fun i => w / 256 ^ i % 256)

/-- Read, getting 0 out of range (all accesses in the embedded code are in range). -/
def lget (l : List Nat) (i : Nat) : Nat := l.getD i 0

/-- In-place update of a list cell. -/
def lset (l : List Nat) (i : Nat) (v : Nat) : List Nat := l.set i v

/-- Embedding of `u32::from_le_bytes` applied to four consecutive bytes. -/
def readU32LE (l : List Nat) (i : Nat) : Nat :=
  lget l i + 256 * lget l (i + 1) + 65536 * lget l (i + 2) + 16777216 * lget l (i + 3)

/-- Rotate a `u32` left. -/
def rotl32 (x n : Nat) : Nat :=
  ((x <<< (n % 32)) % 4294967296) ||| ((x % 4294967296) >>> (32 - n % 32))

/-- Rotate a `u32` right. -/
def rotr32 (x n : Nat) : Nat :=
  ((x % 4294967296) >>> (n % 32)) ||| ((x <<< (32 - n % 32)) % 4294967296)

/-- Rotate a `u64` left. -/
def rotl64 (x n : Nat) : Nat :=
  ((x <<< (n % 64)) % 18446744073709551616) ||| ((x % 18446744073709551616) >>> (64 - n % 64))

/-- Rotate a `u8` left. -/
def rotl8 (x n : Nat) : Nat :=
  ((x <<< (n % 8)) % 256) ||| ((x % 256) >>> (8 - n % 8))

/-- Pack a list of 32-bit words into one natural number, word `i` occupying
bits `32*i` to `32*i + 31` (little-endian word order, so packing the words of
a byte string agrees with `fromLeBytes`).  Hash states are carried in this
packed form so that concrete evaluation stays within fast arbitrary-precision
arithmetic. -/
def packWords (ws : List Nat) : Nat :=
  ws.foldr (fun w acc => w % 4294967296 + acc * 4294967296) 0

/-- Word `i` of a packed 32-bit word array. -/
def getW32 (st i : Nat) : Nat := (st >>> (32 * i)) &&& 4294967295

/-- Replace word `i` of a packed 32-bit word array. -/
def setW32 (st i v : Nat) : Nat := st + (v <<< (32 * i)) - (getW32 st i <<< (32 * i))

/-- Lane `i` of a packed 64-bit lane array. -/
def getL64 (st i : Nat) : Nat := (st >>> (64 * i)) &&& 18446744073709551615

/-- BLAKE3 initialization vector. -/
def blake3IV : List Nat :=
  [1779033703, 3144134277, 1013904242, 2773480762,
   1359893119, 2600822924, 528734635, 1541459225]

/-- BLAKE3 message word permutation applied between rounds. -/
def blake3MsgPerm : List Nat := [2, 6, 3, 10, 7, 0, 4, 13, 1, 11, 12, 5, 9, 14, 15, 8]

/-- BLAKE3 quarter-round on packed state cells `a b c d` with message words
`mx my`. -/
def blake3G (st : Nat) (a b c d mx my : Nat) : Nat :=
  let sa := (getW32 st a + getW32 st b + mx) % 4294967296
  let sd := rotr32 (getW32 st d ^^^ sa) 16
  let sc := (getW32 st c + sd) % 4294967296
  let sb := rotr32 (getW32 st b ^^^ sc) 12
  let sa2 := (sa + sb + my) % 4294967296
  let sd2 := rotr32 (sd ^^^ sa2) 8
  let sc2 := (sc + sd2) % 4294967296
  let sb2 := rotr32 (sb ^^^ sc2) 7
  setW32 (setW32 (setW32 (setW32 st a sa2) b sb2) c sc2) d sd2

/-- One BLAKE3 round: four column mixes then four diagonal mixes. -/
def blake3Round (st m : Nat) : Nat :=
  let st := blake3G st 0 4 8 12 (getW32 m 0) (getW32 m 1)
  let st := blake3G st 1 5 9 13 (getW32 m 2) (getW32 m 3)
  let st := blake3G st 2 6 10 14 (getW32 m 4) (getW32 m 5)
  let st := blake3G st 3 7 11 15 (getW32 m 6) (getW32 m 7)
  let st := blake3G st 0 5 10 15 (getW32 m 8) (getW32 m 9)
  let st := blake3G st 1 6 11 12 (getW32 m 10) (getW32 m 11)
  let st := blake3G st 2 7 8 13 (getW32 m 12) (getW32 m 13)
  blake3G st 3 4 9 14 (getW32 m 14) (getW32 m 15)

/-- Permute the sixteen packed message words with `blake3MsgPerm`. -/
def blake3Permute (m : Nat) : Nat :=
  (List.range 16).foldl (fun acc i => acc + (getW32 m (lget blake3MsgPerm i) <<< (32 * i))) 0

/-- Iterate BLAKE3 rounds, permuting the message schedule in between. -/
def blake3Rounds : Nat → Nat → Nat → Nat
  | 0, st, _ => st
  | n + 1, st, m => blake3Rounds n (blake3Round st m) (blake3Permute m)

/-- The BLAKE3 compression function on packed states: eight chaining words,
sixteen message words, a 64-bit counter, the block length and the flag word;
returns the sixteen output words. -/
def blake3Compress (cv m counter blockLen flags : Nat) : Nat :=
  let st := cv % 2 ^ 256 + (packWords (blake3IV.take 4) <<< 256) +
    ((counter % 4294967296) <<< 384) + ((counter / 4294967296 % 4294967296) <<< 416) +
    (blockLen <<< 448) + (flags <<< 480)
  let v := blake3Rounds 7 st m
  let low := (List.range 8).foldl
    (fun acc i => acc + ((getW32 v i ^^^ getW32 v (i + 8)) <<< (32 * i))) 0
  (List.range 8).foldl
    (fun acc i => acc + ((getW32 v (i + 8) ^^^ getW32 cv i) <<< (32 * (i + 8)))) low

/-- Split a byte list into pieces of `sz` bytes; `fuel` bounds the recursion. -/
def chunkList (sz : Nat) : Nat → List Nat → List (List Nat)
  | 0, _ => []
  | _, [] => []
  | fuel + 1, l => l.take sz :: chunkList sz fuel (l.drop sz)

/-- Compress the 64-byte blocks of one BLAKE3 chunk into its chaining value
(a packed 8-word value).  `first` marks the chunk-start block, `root` puts
the ROOT flag on the final block (single-chunk inputs only); a block's
message words are its bytes read little-endian, implicitly zero-padded. -/
def blake3ChunkBlocks (baseFlags counter : Nat) (root : Bool) :
    Bool → Nat → List (List Nat) → Nat
  | _, cv, [] => cv
  | first, cv, [b] =>
      blake3Compress cv (fromLeBytes b) counter b.length
        (baseFlags + (if first then 1 else 0) + 2 + (if root then 8 else 0)) % 2 ^ 256
  | first, cv, b :: rest =>
      blake3ChunkBlocks baseFlags counter root false
        (blake3Compress cv (fromLeBytes b) counter 64
          (baseFlags + (if first then 1 else 0)) % 2 ^ 256) rest

/-- Chaining value of one BLAKE3 chunk (its contents split into blocks; an
empty chunk still contributes one empty block). -/
def blake3ChunkCV (key : Nat) (baseFlags counter : Nat) (root : Bool)
    (chunk : List Nat) : Nat :=
  let blocks := chunkList 64 (chunk.length + 1) chunk
  blake3ChunkBlocks baseFlags counter root true key (if blocks.isEmpty then [[]] else blocks)

/-- Largest power of two strictly below `n` (for `n ≥ 2`); BLAKE3's
left-subtree size. -/
def pow2lt (n : Nat) : Nat :=
  (List.range 64).foldl (fun acc i => if 2 ^ (i + 1) < n then 2 ^ (i + 1) else acc) 1

/-- Combine BLAKE3 chunk chaining values into the tree root chaining value
(non-root parents); `fuel` bounds the recursion depth. -/
def blake3TreeCV (key : Nat) (baseFlags : Nat) : Nat → List Nat → Nat
  | 0, cvs => cvs.headD 0
  | fuel + 1, cvs =>
      if cvs.length ≤ 1 then cvs.headD 0
      else
        let p := pow2lt cvs.length
        blake3Compress key
          (blake3TreeCV key baseFlags fuel (cvs.take p) +
            (blake3TreeCV key baseFlags fuel (cvs.drop p) <<< 256)) 0 64
          (baseFlags + 4) % 2 ^ 256

/-- Full BLAKE3 over a byte list with packed key words `key` and base flags,
returning the 32-byte digest (the only output length the embedded code
uses). -/
def blake3Run (key : Nat) (baseFlags : Nat) (input : List Nat) : List Nat :=
  let chunks := chunkList 1024 (input.length + 1) input
  let chunks := if chunks.isEmpty then [[]] else chunks
  if chunks.length = 1 then
    u256ToLeBytes (blake3ChunkCV key baseFlags 0 true (chunks.headD []))
  else
    let cvs := (List.range chunks.length).map
      (fun i => blake3ChunkCV key baseFlags i false (chunks.getD i []))
    let p := pow2lt cvs.length
    u256ToLeBytes (blake3Compress key
      (blake3TreeCV key baseFlags cvs.length (cvs.take p) +
        (blake3TreeCV key baseFlags cvs.length (cvs.drop p) <<< 256)) 0 64
      (baseFlags + 4 + 8) % 2 ^ 256)

/-- Unkeyed BLAKE3 hash, 32-byte output (the `blake3::hash` of the sources). -/
def blake3Hash (input : List Nat) : List Nat := blake3Run (packWords blake3IV) 0 input

/-- Keyed BLAKE3 hash (the `blake3::Hasher::new_keyed` of the sources);
flag 16 is KEYED_HASH. -/
def blake3KeyedHash (key32 input : List Nat) : List Nat :=
  blake3Run (fromLeBytes key32) 16 input

/-- Keccak-f[1600] round constants. -/
def keccakRC : List Nat :=
  [0x0000000000000001, 0x0000000000008082, 0x800000000000808a, 0x8000000080008000,
   0x000000000000808b, 0x0000000080000001, 0x8000000080008081, 0x8000000000008009,
   0x000000000000008a, 0x0000000000000088, 0x0000000080008009, 0x000000008000000a,
   0x000000008000808b, 0x800000000000008b, 0x8000000000008089, 0x8000000000008003,
   0x8000000000008002, 0x8000000000000080, 0x000000000000800a, 0x800000008000000a,
   0x8000000080008081, 0x8000000000008080, 0x0000000080000001, 0x8000000080008008]

/-- Keccak rho rotation offsets for lane `x + 5 * y`, packed 8 bits per lane
(lane 0 in the low byte): the table 0, 1, 62, 28, 27, 36, 44, 6, 55, 20, 3,
10, 43, 25, 39, 41, 45, 15, 21, 8, 18, 2, 61, 56, 14. -/
def keccakRot : Nat :=
  89258383713920927661308625412228560764474086209111705125120

/-- The rho rotation offset of lane `i`. -/
def keccakRotOf (i : Nat) : Nat := (keccakRot >>> (8 * i)) &&& 255

/-- Keccak theta step over the packed 25-lane state. -/
def keccakTheta (a : Nat) : Nat :=
  let c := (List.range 5).map
    (fun x => getL64 a x ^^^ getL64 a (x + 5) ^^^ getL64 a (x + 10) ^^^
      getL64 a (x + 15) ^^^ getL64 a (x + 20))
  let d := (List.range 5).map (fun x => lget c ((x + 4) % 5) ^^^ rotl64 (lget c ((x + 1) % 5)) 1)
  (List.range 25).foldl (fun acc i => acc + ((getL64 a i ^^^ lget d (i % 5)) <<< (64 * i))) 0

/-- Keccak rho and pi steps. -/
def keccakRhoPi (a : Nat) : Nat :=
  (List.range 25).foldl
    (fun b i =>
      let x := i % 5
      let y := i / 5
      b + (rotl64 (getL64 a i) (keccakRotOf i) <<< (64 * (y + 5 * ((2 * x + 3 * y) % 5)))))
    0

/-- Keccak chi step. -/
def keccakChi (b : Nat) : Nat :=
  (List.range 25).foldl
    (fun acc i =>
      let x := i % 5
      let y := i / 5
      acc + ((getL64 b i ^^^
        ((getL64 b ((x + 1) % 5 + 5 * y) ^^^ 18446744073709551615) &&&
          getL64 b ((x + 2) % 5 + 5 * y))) <<< (64 * i)))
    0

/-- One Keccak round: theta, rho-pi, chi, then the round-constant XOR, which
touches only lane 0. -/
def keccakRound (s r : Nat) : Nat :=
  keccakChi (keccakRhoPi (keccakTheta s)) ^^^ lget keccakRC r

/-- The Keccak-f[1600] permutation (24 rounds). -/
def keccakF (st : Nat) : Nat :=
  (List.range 24).foldl keccakRound st

/-- ChaCha quarter round on packed state cells `a b c d`. -/
def chachaQR (st : Nat) (a b c d : Nat) : Nat :=
  let sa := (getW32 st a + getW32 st b) % 4294967296
  let sd := rotl32 (getW32 st d ^^^ sa) 16
  let sc := (getW32 st c + sd) % 4294967296
  let sb := rotl32 (getW32 st b ^^^ sc) 12
  let sa2 := (sa + sb) % 4294967296
  let sd2 := rotl32 (sd ^^^ sa2) 8
  let sc2 := (sc + sd2) % 4294967296
  let sb2 := rotl32 (sb ^^^ sc2) 7
  setW32 (setW32 (setW32 (setW32 st a sa2) b sb2) c sc2) d sd2

/-- One ChaCha double round (columns then diagonals). -/
def chachaDoubleRound (st : Nat) : Nat :=
  let st := chachaQR st 0 4 8 12
  let st := chachaQR st 1 5 9 13
  let st := chachaQR st 2 6 10 14
  let st := chachaQR st 3 7 11 15
  let st := chachaQR st 0 5 10 15
  let st := chachaQR st 1 6 11 12
  let st := chachaQR st 2 7 8 13
  chachaQR st 3 4 9 14

/-- One 64-byte ChaCha20 keystream block (packed) for the packed key words
and 64-bit block counter, with stream id 0 — the layout of
`rand_chacha::ChaCha20Rng` seeded by `from_seed` (counter and stream both
start at zero). -/
def chachaBlock (key counter : Nat) : Nat :=
  let st0 := 0x61707865 + (0x3320646e <<< 32) + (0x79622d32 <<< 64) + (0x6b206574 <<< 96) +
    ((key % 2 ^ 256) <<< 128) + ((counter % 4294967296) <<< 384) +
    ((counter / 4294967296 % 4294967296) <<< 416)
  let st := Nat.iterate chachaDoubleRound 10 st0
  (List.range 16).foldl
    (fun acc i => acc + (((getW32 st i + getW32 st0 i) % 4294967296) <<< (32 * i))) 0

/-- Byte `i` of the ChaCha20 keystream generated from a 32-byte seed; the
sequence of bytes a fresh `ChaCha20Rng::from_seed(seed)` produces through
`fill_bytes`. -/
def chachaKeystream (seed : List Nat) (i : Nat) : Nat :=
  (chachaBlock (fromLeBytes seed) (i / 64) >>> (8 * (i % 64))) &&& 255

/-- First `n` bytes drawn from a fresh ChaCha20 RNG with the given 32-byte
seed (the embedding of consecutive `fill_bytes` draws). -/
def chachaFillBytes (seed : List Nat) (n : Nat) : List Nat :=
  (List.range n).map (chachaKeystream seed)

/-- Byte `i` of a 256-bit little-endian-packed byte array. -/
def getByte (n i : Nat) : Nat := (n >>> (8 * i)) &&& 255

/-- SHA3-256 of a message of `len` bytes (`len < 136`), packed little-endian:
the single padded block absorbed into the zero state and permuted, digest as
a packed 256-bit value. -/
def sha3_256packed (msg len : Nat) : Nat :=
  keccakF ((msg % 2 ^ (8 * len)) ^^^ (6 <<< (8 * len)) ^^^ (128 <<< 1080)) % 2 ^ 256

/-- Embedding of `sha3_hash` from `consensus/pow/src/lib.rs` (the `Ok` value;
the length mismatch error branch is unreachable for the fixed 32-byte
output).  The 32-byte arrays of the `calculate_pow` pipeline are carried as
256-bit little-endian-packed naturals. -/
def sha3_hash (input : Nat) : Nat := sha3_256packed input 32

/-- Embedding of `blake3_hash` from `consensus/pow/src/lib.rs`: BLAKE3 of a
32-byte value (packed), a single one-block chunk with flags
CHUNK_START + CHUNK_END + ROOT. -/
def blake3_hash (input : Nat) : Nat :=
  blake3Compress (packWords blake3IV) (input % 2 ^ 256) 0 32 11 % 2 ^ 256

/-- Embedding of `calculate_rounds` from `consensus/pow/src/lib.rs`: the
SHA3-256 of the pre-PoW hash and the little-endian timestamp (a 40-byte
message), first four bytes as a little-endian `u32`, reduced to the range
1–4. -/
def calculate_rounds (pre_pow_hash timestamp : Nat) : Nat :=
  (sha3_256packed (pre_pow_hash % 2 ^ 256 + ((timestamp % 2 ^ 64) <<< 256)) 40 &&&
    4294967295) % 4 + 1

/-- Embedding of `bit_manipulations` from `consensus/pow/src/lib.rs`: in each
4-byte group of the 32-byte value, byte 0 is XORed with byte 1 and byte 2
with byte 3. -/
def bit_manipulations (data : Nat) : Nat :=
  (List.range 8).foldl
    (fun d i => d ^^^ (getByte d (4 * i + 1) <<< (8 * (4 * i))) ^^^
      (getByte d (4 * i + 3) <<< (8 * (4 * i + 2)))) data

/-- Embedding of `byte_mixing` from `consensus/pow/src/lib.rs`: the byte-wise
XOR of two 32-byte values is the XOR of their packed forms. -/
def byte_mixing (sh b3 : Nat) : Nat := sh ^^^ b3

/-- Embedding of `PowHash::new` plus `PowHash::finalize_with_nonce` from
`crypto/hashes/src/pow_hashers.rs`: BLAKE3 over the pre-PoW hash, the
little-endian timestamp, 32 zero bytes and the little-endian nonce — an
80-byte single-chunk input of two blocks (the 32-byte XOF prefix equals the
standard digest). -/
def finalize_with_nonce (pre_pow_hash timestamp nonce : Nat) : Nat :=
  let cv := blake3Compress (packWords blake3IV)
    (pre_pow_hash % 2 ^ 256 + ((timestamp % 2 ^ 64) <<< 256)) 0 64 1 % 2 ^ 256
  blake3Compress cv ((nonce % 2 ^ 64) <<< 64) 0 16 10 % 2 ^ 256

/-- Embedding of `VecnoHash::hash` from `crypto/hashes/src/pow_hashers.rs`:
plain BLAKE3 of a 32-byte value. -/
def vecnoHash (input : List Nat) : List Nat := blake3Hash input

/-- Modelled from the spec: `Uint256::bits` of the external `vecno_math`
crate (absent from the sources), described as `pow_hash.bit_length()` — the
number of bits needed to represent the value, i.e. one plus the position of
the highest set bit, and 0 for the value 0.  `fuel` bounds the recursion;
256 suffices for all 256-bit values. -/
def bitLen : Nat → Nat → Nat
  | 0, _ => 0
  | fuel + 1, n => if n = 0 then 0 else bitLen fuel (n / 2) + 1

/-- Bit length of a 256-bit value (`Uint256::bits`). -/
def uint256Bits (n : Nat) : Nat := bitLen 256 n

/-- Modelled from the spec: `Uint256::from_compact_target_bits` of the
external `vecno_math` crate (absent from the sources) — the Bitcoin-style
compact difficulty encoding behind the header's `bits` field: a base-256
exponent in the top byte and a 23-bit mantissa, with a zero result when the
mantissa sign bit is set. -/
def from_compact_target_bits (bits : Nat) : Nat :=
  let unshiftedExpt := bits >>> 24
  let mant := if unshiftedExpt ≤ 3
    then (bits &&& 0xFFFFFF) >>> (8 * (3 - unshiftedExpt))
    else bits &&& 0xFFFFFF
  let expt := if unshiftedExpt ≤ 3 then 0 else 8 * (unshiftedExpt - 3)
  if 0x7FFFFF < mant then 0 else (mant <<< expt) % 2 ^ 256

/-- Embedding of `State` from `consensus/pow/src/lib.rs`: the difficulty
target, the pre-PoW hash (a 32-byte array, packed little-endian), the
timestamp and the Merkle root bytes.  The `hasher` field of the source (a
BLAKE3 hasher pre-fed with the pre-PoW hash and timestamp) is determined by
`pre_pow_hash` and `timestamp`; its finalization is the function
`finalize_with_nonce`. -/
structure State where
  target : Nat
  pre_pow_hash : Nat
  timestamp : Nat
  merkle_root : List Nat
deriving DecidableEq

/-- The number of outer hash rounds used while computing
`State::calculate_pow(nonce)`: the source binds
`rounds = calculate_rounds(self.pre_pow_hash, self.timestamp)`, which reads
only header-derived fields; the nonce parameter records at which nonce the
computation runs. -/
def powRoundsOf (s : State) (_nonce : Nat) : Nat :=
  calculate_rounds s.pre_pow_hash s.timestamp

/-- The mixed hash built by `State::calculate_pow(nonce)` before the
memory-hard stage: the nonce-finalized BLAKE3 hash run through `rounds`
BLAKE3 iterations (kept as `b3_hash`) followed by `rounds` SHA3-256
iterations, each with `bit_manipulations`, the two XOR-combined by
`byte_mixing`. -/
def powMixedHash (s : State) (nonce : Nat) : Nat :=
  let hash0 := finalize_with_nonce s.pre_pow_hash s.timestamp nonce
  let rounds := powRoundsOf s nonce
  let b3 := Nat.iterate (fun h => bit_manipulations (blake3_hash h)) rounds hash0
  let sh := Nat.iterate (fun h => bit_manipulations (sha3_hash h)) rounds b3
  byte_mixing sh b3

/-- Embedding of `calculate_hash_rounds` from `consensus/pow/src/mem_hash.rs`:
BLAKE3 over the 32-byte block hash and the little-endian seed, first four
bytes as little-endian `u32`, reduced to the range 16–31. -/
def calculate_hash_rounds (block_hash : List Nat) (seed : Nat) : Nat :=
  readU32LE (blake3Hash (block_hash ++ toLeBytes8 seed)) 0 % 16 + 16

/-- The memory-hard round count used while computing
`State::calculate_pow(nonce)`: `mem_hash` derives it from the bytes of the
nonce-dependent mixed hash and the timestamp seed. -/
def memRoundsOf (s : State) (nonce : Nat) : Nat :=
  calculate_hash_rounds (u256ToLeBytes (powMixedHash s nonce)) s.timestamp

/-- The bytes of the close-hash domain tag appended by `calculate_memory_size`. -/
def closeHashTag : List Nat := [99, 108, 111, 115, 101, 95, 104, 97, 115, 104]

/-- Embedding of `calculate_memory_size` from `consensus/pow/src/mem_hash.rs`:
a fixed 4 KiB for normal hashes, and for close hashes a BLAKE3-derived size of
4000–7999 KiB; returns the size in bytes and in `u32` elements. -/
def calculate_memory_size (block_hash : List Nat) (seed nonce : Nat)
    (merkle_root : List Nat) (target : Nat) (is_close_hash : Bool) : Nat × Nat :=
  if !is_close_hash then (4 * 1024, 4 * 1024 / 4)
  else
    let hash_bytes := blake3Hash (merkle_root ++ block_hash ++ toLeBytes8 seed ++
      toLeBytes8 nonce ++ u256ToLeBytes target ++ closeHashTag)
    let mem_size_kb := 4000 + readU32LE hash_bytes 0 % (8000 - 4000)
    (mem_size_kb * 1024, mem_size_kb * 1024 / 4)

/-- Embedding of `generate_sbox` from `consensus/pow/src/mem_hash.rs`: a
ChaCha20-filled box of `32 + bits(target) * 96 / 256` bytes, two sequential
non-linear mixing layers, then a fixed-point removal pass. -/
def generate_sbox (block_hash : List Nat) (target : Nat) : List Nat :=
  let difficulty_factor := uint256Bits target
  let sbox_size := 32 + difficulty_factor * (128 - 32) / 256
  let output := chachaFillBytes block_hash sbox_size
  let output := (List.range sbox_size).foldl
    (fun o i =>
      let next := (i + 1) % sbox_size
      let prev := (i + sbox_size - 1) % sbox_size
      lset o i (((lget o i + lget o next * lget o prev % 256) % 256 +
        lget o i * lget o prev % 251) % 256))
    output
  let output := (List.range sbox_size).foldl
    (fun o i =>
      let next := (i + 2) % sbox_size
      let prev := (i + sbox_size - 2) % sbox_size
      lset o i (lget o i ^^^ lget o next ^^^ rotl8 (lget o prev) 3 ^^^
        lget o i * lget o next % 257 % 256))
    output
  (List.range sbox_size).foldl
    (fun o i => if lget o i = i % 256 then lset o i (lget o i ^^^ 0xFF) else o) output

/-- Embedding of `fill_memory` from `consensus/pow/src/mem_hash.rs`: the
buffer is overwritten with `len / 4` four-byte draws from a fresh ChaCha20
RNG seeded with the 32-byte seed — i.e. with the keystream prefix. -/
def fill_memory (seed : List Nat) (len : Nat) : List Nat :=
  chachaFillBytes seed (len / 4 * 4)

/-- Embedding of `u32_array_to_u8_array` from `consensus/pow/src/mem_hash.rs`. -/
def u32_array_to_u8_array (input : List Nat) : List Nat :=
  input.foldr (fun w acc => toLeBytes4 w ++ acc) []

/-- Embedding of the result-array initialization (`initialize_result` in
`consensus/pow/src/mem_hash.rs`): eight little-endian `u32` words of the
32-byte block hash. -/
def initResult (block_hash_bytes : List Nat) : List Nat :=
  (List.range 8).map (fun i => readU32LE block_hash_bytes (i * 4))

/-- Embedding of `apply_feistel_network` from `consensus/pow/src/mem_hash.rs`. -/
def apply_feistel_network (result sbox : List Nat) : List Nat :=
  let temp := (List.range 4).foldl
    (fun t i =>
      let f := (lget t (i + 4) + lget sbox ((lget t i &&& 0xFF) % sbox.length)) % 4294967296
      lset t i (lget t i ^^^ rotl32 f 7))
    result
  temp.drop 4 ++ temp.take 4

/-- Embedding of `process_memory_access` from `consensus/pow/src/mem_hash.rs`. -/
def process_memory_access (i : Nat) (result : List Nat) (prev_v : Nat) (memory : List Nat)
    (h_mem h_mem_u32 window_elements : Nat) (sbox round_hash : List Nat) : Nat :=
  let start_idx := i * 4 % 28
  let target_index := readU32LE round_hash start_idx % window_elements
  let v := (List.range window_elements).foldl
    (fun v j =>
      let mem_index :=
        if 4 * 1024 < h_mem then (prev_v % h_mem_u32 * 4 + j * 4) % h_mem
        else if i % 2 = 0 then (prev_v % h_mem_u32 * 4 + j * 4) % h_mem
        else (i * 4 + j * 4) % h_mem
      let current_v := readU32LE memory mem_index
      let mask := if j = target_index then 4294967295 else 0
      v ^^^ (current_v &&& mask))
    0
  let v := v ^^^ lget result i
  let branch := (v &&& 0xFF) % 4
  let r1 := lget result ((i + 1) % 8)
  let v :=
    if branch = 0 then (v + r1) % 4294967296
    else if branch = 1 then (v + (4294967296 - r1 % 4294967296)) % 4294967296
    else if branch = 2 then rotl32 v (r1 &&& 0x1F)
    else v ^^^ r1
  lget sbox ((v &&& 0xFF) % sbox.length) +
    256 * lget sbox (((v >>> 8) &&& 0xFF) % sbox.length) +
    65536 * lget sbox (((v >>> 16) &&& 0xFF) % sbox.length) +
    16777216 * lget sbox (((v >>> 24) &&& 0xFF) % sbox.length)

/-- Embedding of `extra_memory_access` from `consensus/pow/src/mem_hash.rs`. -/
def extra_memory_access (v i : Nat) (memory : List Nat)
    (h_mem h_mem_u32 window_elements : Nat) (round_hash : List Nat) : Nat :=
  let start_idx := (i + 1) * 4 % 28
  let target_extra_index := readU32LE round_hash start_idx % window_elements
  (List.range window_elements).foldl
    (fun ev j =>
      let mem_index := (v % h_mem_u32 * 4 + j * 4) % h_mem
      let current_v := readU32LE memory mem_index
      let mask := if j = target_extra_index then 4294967295 else 0
      ev ^^^ (current_v &&& mask))
    0

/-- Write a `u32` into four consecutive memory bytes, little-endian. -/
def writeU32LE (m : List Nat) (idx v : Nat) : List Nat :=
  lset (lset (lset (lset m idx (v &&& 0xFF)) (idx + 1) ((v >>> 8) &&& 0xFF))
    (idx + 2) ((v >>> 16) &&& 0xFF)) (idx + 3) ((v >>> 24) &&& 0xFF)

/-- Embedding of `update_memory` from `consensus/pow/src/mem_hash.rs`. -/
def update_memory (v result_i i h_mem h_mem_u32 : Nat) (memory : List Nat) : List Nat :=
  let delta := v ^^^ result_i
  if 0xFFFF < delta then
    let mem_index := if 4 * 1024 < h_mem then v % h_mem_u32 * 4 % h_mem else i * 4 % h_mem
    writeU32LE memory mem_index v
  else memory

/-- Embedding of `process_round` from `consensus/pow/src/mem_hash.rs`: a
Feistel pass, one BLAKE3 per round over the nonce and first result word, and
the eight sequential memory-dependent word updates. -/
def process_round (result : List Nat) (nonce : Nat) (memory : List Nat)
    (h_mem h_mem_u32 window_elements : Nat) (sbox : List Nat) (is_close_hash : Bool) :
    List Nat × List Nat :=
  let result := apply_feistel_network result sbox
  let round_hash := blake3Hash (toLeBytes8 nonce ++ toLeBytes4 (lget result 0))
  let fin := (List.range 8).foldl
    (fun (acc : List Nat × List Nat × Nat) i =>
      let res := acc.1
      let mem := acc.2.1
      let prev_v := acc.2.2
      let v := process_memory_access i res prev_v mem h_mem h_mem_u32 window_elements sbox round_hash
      let v := if is_close_hash
        then v ^^^ extra_memory_access v i mem h_mem h_mem_u32 window_elements round_hash
        else v
      let mem := update_memory v (lget res i) i h_mem h_mem_u32 mem
      (lset res i v, mem, v))
    (result, memory, lget result 0)
  (fin.1, fin.2.1)

/-- Wrapping 256-bit addition.  Modelled from the spec's 256-bit arithmetic:
`Uint256` addition (external `vecno_math` crate) discards the final carry. -/
def uadd256 (a b : Nat) : Nat := (a + b) % 2 ^ 256

/-- The initial phase of `mem_hash` from `consensus/pow/src/mem_hash.rs`:
normal-size memory is allocated and ChaCha20-filled, and
`rounds + extra_rounds` rounds are processed with `is_close_hash = false`;
returns the result words and the memory buffer. -/
def memHashPhase1 (block_hash : List Nat) (seed nonce : Nat)
    (merkle_root : List Nat) (target : Nat) : List Nat × List Nat :=
  let hm := calculate_memory_size block_hash seed nonce merkle_root target false
  let sbox := generate_sbox block_hash target
  let result := initResult block_hash
  let rounds := calculate_hash_rounds block_hash seed
  let extra_rounds := if 4 * 1024 < hm.1 then 32 else 0
  let memory := fill_memory block_hash hm.1
  Nat.iterate
    (fun rm => process_round rm.1 nonce rm.2 hm.1 hm.2 (64 / 4) sbox false)
    (rounds + extra_rounds) (result, memory)

/-- The preliminary 256-bit value `mem_hash` compares against the closeness
threshold: the little-endian reading of the result words after the initial
rounds. -/
def memHashPreliminary (block_hash : List Nat) (seed nonce : Nat)
    (merkle_root : List Nat) (target : Nat) : Nat :=
  fromLeBytes (u32_array_to_u8_array (memHashPhase1 block_hash seed nonce merkle_root target).1)

/-- The closeness threshold of `mem_hash`:
`2 ^ (256 - (48 - bits(target) * 16 / 256))`. -/
def closenessThreshold (target : Nat) : Nat :=
  (1 <<< (256 - (48 - uint256Bits target * 16 / 256))) % 2 ^ 256

/-- The byte size of the scratchpad `mem_hash` mixes over at the end of a
call: 4 KiB unless the preliminary value is within the closeness threshold
of the target and the close-hash size fits below the 8 MiB cap, in which
case the buffer is resized to the close-hash size. -/
def memHashFinalMemSize (block_hash : List Nat) (seed nonce : Nat)
    (merkle_root : List Nat) (target : Nat) : Nat :=
  let h_mem := (calculate_memory_size block_hash seed nonce merkle_root target false).1
  if memHashPreliminary block_hash seed nonce merkle_root target ≤
      uadd256 target (closenessThreshold target) then
    let new_h_mem := (calculate_memory_size block_hash seed nonce merkle_root target true).1
    if new_h_mem ≤ 8 * 1024 * 1024 then new_h_mem else h_mem
  else h_mem

/-- Embedding of `mem_hash` from `consensus/pow/src/mem_hash.rs`: the initial
rounds over the 4 KiB buffer, the close-hash feedback loop (resize, refill
and reprocess when the preliminary value is close to the target), and the
final BLAKE3 over the result words. -/
def mem_hash (block_hash : List Nat) (seed nonce : Nat)
    (merkle_root : List Nat) (target : Nat) : List Nat :=
  let sbox := generate_sbox block_hash target
  let rounds := calculate_hash_rounds block_hash seed
  let extra_rounds :=
    if 4 * 1024 < (calculate_memory_size block_hash seed nonce merkle_root target false).1
    then 32 else 0
  let phase1 := memHashPhase1 block_hash seed nonce merkle_root target
  let result := phase1.1
  let preliminary_hash := fromLeBytes (u32_array_to_u8_array result)
  if preliminary_hash ≤ uadd256 target (closenessThreshold target) then
    let nhm := calculate_memory_size block_hash seed nonce merkle_root target true
    if nhm.1 ≤ 8 * 1024 * 1024 then
      let memory2 := fill_memory block_hash nhm.1
      let fin := Nat.iterate
        (fun rm => process_round rm.1 nonce rm.2 nhm.1 nhm.2 (64 / 4) sbox true)
        (rounds + extra_rounds) (result, memory2)
      vecnoHash (u32_array_to_u8_array fin.1)
    else vecnoHash (u32_array_to_u8_array result)
  else vecnoHash (u32_array_to_u8_array result)

/-- The final 32-byte PoW output of `State::calculate_pow(nonce)`: the
memory-hard hash of the mixed hash, timestamp seed, nonce, Merkle root and
target. -/
def powFinalHash (s : State) (nonce : Nat) : List Nat :=
  mem_hash (u256ToLeBytes (powMixedHash s nonce)) s.timestamp nonce s.merkle_root s.target

/-- Embedding of `State::calculate_pow` from `consensus/pow/src/lib.rs`: the
final hash bytes interpreted as a little-endian 256-bit integer. -/
def calculate_pow (s : State) (nonce : Nat) : Nat :=
  fromLeBytes (powFinalHash s nonce)

/-- Embedding of `State::check_pow` from `consensus/pow/src/lib.rs`: whether
the PoW value is at most the target, together with the value. -/
def check_pow (s : State) (nonce : Nat) : Bool × Nat :=
  (decide (calculate_pow s nonce ≤ s.target), calculate_pow s nonce)

/-- Embedding of `calc_level_from_pow` from `consensus/pow/src/lib.rs`:
`max(max_block_level - pow.bits(), 0)` over signed integers, cast to the
`u8` block-level type. -/
def calc_level_from_pow (pow max_block_level : Nat) : Nat :=
  (Int.toNat (max ((max_block_level : Int) - (uint256Bits pow : Int)) 0)) % 256

/-- Embedding of the consensus `Header` (the fields of the spec's data
model; `parents_by_level` is a vector of levels, each a list of 32-byte
hashes). -/
structure Header where
  version : Nat
  parents_by_level : List (List (List Nat))
  hash_merkle_root : List Nat
  accepted_id_merkle_root : List Nat
  utxo_commitment : List Nat
  timestamp : Nat
  bits : Nat
  nonce : Nat
  daa_score : Nat
  blue_work : Nat
  blue_score : Nat
  pruning_point : List Nat
deriving DecidableEq

/-- The `BlockHash` domain-separation key from `crypto/hashes/src/hashers.rs`
(the ASCII bytes of the tag, zero-padded to 32 bytes). -/
def blockHashDomainKey : List Nat :=
  [66, 108, 111, 99, 107, 72, 97, 115, 104] ++ List.replicate 23 0

/-- Modelled from the spec: the canonical header encoding hashed by
`hashing::header::hash_override_nonce_time` (the hashing module of
`consensus/core` is absent from the sources).  The spec states the hash is
the domain-separated BLAKE3 of the canonical encoding with the given nonce
and timestamp overriding the header's own. -/
def headerEncode (h : Header) (nonceOverride timestampOverride : Nat) : List Nat :=
  toLeBytes8 h.version ++ toLeBytes8 h.parents_by_level.length ++
  (h.parents_by_level.foldr
    (fun level acc => toLeBytes8 level.length ++ level.foldr (fun p acc2 => p ++ acc2) [] ++ acc) []) ++
  h.hash_merkle_root ++ h.accepted_id_merkle_root ++ h.utxo_commitment ++
  toLeBytes8 timestampOverride ++ toLeBytes4 h.bits ++ toLeBytes8 nonceOverride ++
  toLeBytes8 h.daa_score ++ toLeBytes8 h.blue_score ++ u256ToLeBytes h.blue_work ++
  h.pruning_point

/-- Modelled from the spec: `hash_override_nonce_time(header, 0, 0)` — the
keyed BLAKE3 of the canonical encoding with nonce and timestamp zeroed. -/
def hash_override_nonce_time (h : Header) (nonce timestamp : Nat) : List Nat :=
  blake3KeyedHash blockHashDomainKey (headerEncode h nonce timestamp)

/-- Embedding of `State::new` from `consensus/pow/src/lib.rs`: target from
the compact bits, pre-PoW hash with nonce and timestamp zeroed, the header's
timestamp and Merkle root. -/
def State.new (h : Header) : State :=
  { target := from_compact_target_bits h.bits
    pre_pow_hash := fromLeBytes (hash_override_nonce_time h 0 0)
    timestamp := h.timestamp
    merkle_root := h.hash_merkle_root }

/-- Embedding of `calc_block_level_check_pow` from `consensus/pow/src/lib.rs`:
genesis-shaped headers (no parent levels) pass unconditionally at the maximum
level; otherwise the PoW state is built and checked at the header's nonce. -/
def calc_block_level_check_pow (h : Header) (max_block_level : Nat) : Nat × Bool :=
  if h.parents_by_level.isEmpty then (max_block_level, true)
  else
    let s := State.new h
    let pw := check_pow s h.nonce
    (calc_level_from_pow pw.2 max_block_level, pw.1)

/-- Embedding of `calc_block_level` from `consensus/pow/src/lib.rs`. -/
def calc_block_level (h : Header) (max_block_level : Nat) : Nat :=
  (calc_block_level_check_pow h max_block_level).1

/-- A socket address: IP (as an opaque number) and port — the embedding of
`std::net::SocketAddr` as used by the connection manager. -/
structure SockAddr where
  ip : Nat
  port : Nat
deriving DecidableEq

/-- Embedding of `ConnectionRequest` from
`components/connectionmanager/src/lib.rs`; `next_attempt` is a timestamp in
seconds. -/
structure ConnectionRequest where
  next_attempt : Nat
  is_permanent : Bool
  attempts : Nat
deriving DecidableEq

/-- Embedding of `ConnectionRequest::new`: next attempt now, zero attempts. -/
def ConnectionRequest.new (now : Nat) (is_permanent : Bool) : ConnectionRequest :=
  { next_attempt := now, is_permanent := is_permanent, attempts := 0 }

/-- The per-entry body of `ConnectionManager::handle_connection_requests`
from `components/connectionmanager/src/lib.rs`, as a function of the current
time, whether the peer is already connected and whether a connection attempt
would succeed; returns the entry kept in the new request map, if any.  The
source reads the clock again when scheduling a retry; the embedding uses the
same `now` for the check and the schedule. -/
def processRequest (now : Nat) (is_connected connect_ok : Bool)
    (address : SockAddr) (request : ConnectionRequest) :
    Option (SockAddr × ConnectionRequest) :=
  if is_connected && !request.is_permanent then none
  else if !is_connected && request.next_attempt ≤ now then
    if !connect_ok then
      if request.is_permanent then
        some (address,
          { next_attempt := now + 30 * 2 ^ min request.attempts 4
            attempts := request.attempts + 1
            is_permanent := true })
      else none
    else
      if request.is_permanent then some (address, ConnectionRequest.new now true)
      else none
  else some (address, request)

/-- Embedding of `ConnectionManager::handle_connection_requests`: every entry
of the request map is processed independently and the surviving entries form
the new map (the map is modelled as an association list). -/
def handle_connection_requests (now : Nat) (is_connected connect_ok : SockAddr → Bool)
    (requests : List (SockAddr × ConnectionRequest)) :
    List (SockAddr × ConnectionRequest) :=
  requests.filterMap (fun e => processRequest now (is_connected e.1) (connect_ok e.1) e.1 e.2)

/-- Embedding of `ConnectionManager::add_connection_request`: inserting a
fresh request (zero attempts) for the address, replacing any previous one. -/
def add_connection_request (now : Nat) (address : SockAddr) (is_permanent : Bool)
    (requests : List (SockAddr × ConnectionRequest)) :
    List (SockAddr × ConnectionRequest) :=
  (address, ConnectionRequest.new now is_permanent) ::
    requests.filter (fun e => !(e.1 = address : Bool))

/-- The connection-manager state visible to `ban`: the active peers of the
p2p adaptor (by socket address), the request map, and the address-manager
ban list. -/
structure CMState where
  peers : List SockAddr
  requests : List (SockAddr × ConnectionRequest)
  banned : List Nat
deriving DecidableEq

/-- Embedding of `ConnectionManager::ip_has_permanent_connection`: whether
some request on the IP is permanent. -/
def ip_has_permanent_connection (requests : List (SockAddr × ConnectionRequest))
    (ip : Nat) : Bool :=
  requests.any (fun e => e.2.is_permanent && e.1.ip == ip)

/-- Embedding of `ConnectionManager::ban` from
`components/connectionmanager/src/lib.rs`: an early return when the IP has a
permanent request; otherwise every active peer on the IP is terminated and
the IP is added to the address manager's ban list. -/
def ban (st : CMState) (ip : Nat) : CMState :=
  if ip_has_permanent_connection st.requests ip then st
  else
    { peers := st.peers.filter (fun p => !(p.ip == ip))
      requests := st.requests
      banned := ip :: st.banned }

/-- A `GetBlockRequest` payload (`rpc/grpc/client/src/resolver/matcher.rs`):
the requested hash as a byte string. -/
structure GetBlockReq where
  hash : List Nat
deriving DecidableEq

/-- Verbose data of an RPC block: its hash. -/
structure VerboseData where
  hash : List Nat
deriving DecidableEq

/-- An RPC block as seen by the matcher: optional verbose data. -/
structure RpcBlock where
  verbose_data : Option VerboseData
deriving DecidableEq

/-- An RPC error: its message bytes. -/
structure RpcError where
  message : List Nat
deriving DecidableEq

/-- A `GetBlockResponse` payload: optional block and optional error. -/
structure GetBlockResp where
  block : Option RpcBlock
  error : Option RpcError
deriving DecidableEq

/-- The request payload variants relevant to the matcher
(`vecnod_request::Payload`): the `GetBlockRequest` variant it inspects, and
all other operations identified by their payload-operation code. -/
inductive ReqPayload where
  | getBlockRequest : GetBlockReq → ReqPayload
  | otherRequest : Nat → ReqPayload
deriving DecidableEq

/-- The response payload variants (`vecnod_response::Payload`). -/
inductive RespPayload where
  | getBlockResponse : GetBlockResp → RespPayload
  | otherResponse : Nat → RespPayload
deriving DecidableEq

/-- The payload-operation code of a response payload (the
`VecnodPayloadOps` conversion in `handle_response`); code 0 is the
`GetBlock` operation. -/
def respPayloadOp : RespPayload → Nat
  | RespPayload.getBlockResponse _ => 0
  | RespPayload.otherResponse n => n

/-- Embedding of `VecnodRequest`: an optional request payload. -/
structure VecnodRequest where
  payload : Option ReqPayload
deriving DecidableEq

/-- Embedding of `VecnodResponse`: an optional response payload. -/
structure VecnodResponse where
  payload : Option RespPayload
deriving DecidableEq

/-- Whether the first list occurs at the head of the second. -/
def sliceMatch : List Nat → List Nat → Bool
  | [], _ => true
  | _ :: _, [] => false
  | a :: as, b :: bs => a == b && sliceMatch as bs

/-- Whether the first list occurs contiguously inside the second (the
embedding of `str::contains` on the error message). -/
def containsSlice (needle : List Nat) : List Nat → Bool
  | [] => needle.isEmpty
  | b :: bs => sliceMatch needle (b :: bs) || containsSlice needle bs

/-- Embedding of `Matcher::is_matching` on payloads from
`rpc/grpc/client/src/resolver/matcher.rs`: a `GetBlockRequest` matches a
`GetBlockResponse` whose verbose data carries the requested hash (trivially
when the block has no verbose data), or whose error message contains the
requested hash; every other request payload matches any response. -/
def payloadIsMatching : ReqPayload → RespPayload → Bool
  | ReqPayload.getBlockRequest req, RespPayload.getBlockResponse resp =>
      match resp.block with
      | some block =>
        match block.verbose_data with
        | some vd => vd.hash == req.hash
        | none => true
      | none =>
        match resp.error with
        | some err => containsSlice req.hash err.message
        | none => false
  | ReqPayload.getBlockRequest _, _ => false
  | ReqPayload.otherRequest _, _ => true

/-- Embedding of `Matcher::is_matching` on `VecnodRequest`/`VecnodResponse`:
false whenever either payload is absent. -/
def vecnodIsMatching (req : VecnodRequest) (resp : VecnodResponse) : Bool :=
  match resp.payload, req.payload with
  | some rp, some qp => payloadIsMatching qp rp
  | _, _ => false

/-- Embedding of `Pending` from `rpc/grpc/client/src/resolver/queue.rs`: the
payload operation and the request (the oneshot sender and timestamp carry no
matching information). -/
structure Pending where
  op : Nat
  request : VecnodRequest
deriving DecidableEq

/-- Embedding of `Pending::is_matching`: same payload operation and matching
payload contents. -/
def Pending.matches (p : Pending) (response : VecnodResponse) (response_op : Nat) : Bool :=
  p.op == response_op && vecnodIsMatching p.request response

/-- The scan of `handle_response` over the queue when the front does not
match: remove the first matching entry, keeping every other entry in order
(the embedding of the `VecDeque::remove` loop). -/
def removeFirstMatching (m : Pending → Bool) : List Pending → Option Pending × List Pending
  | [] => (none, [])
  | x :: xs =>
    if m x then (some x, xs)
    else
      let r := removeFirstMatching m xs
      (r.1, x :: r.2)

/-- Embedding of `QueueResolver::handle_response` from
`rpc/grpc/client/src/resolver/queue.rs`: the completed pending request (if
any) and the remaining queue.  The source panics when the response carries no
payload (it is then a notification, never routed here); the embedding leaves
the queue unchanged in that case. -/
def handleResponse (response : VecnodResponse) (q : List Pending) :
    Option Pending × List Pending :=
  match response.payload with
  | none => (none, q)
  | some pl =>
    let response_op := respPayloadOp pl
    match q with
    | [] => (none, [])
    | front :: rest =>
      if front.matches response response_op then (some front, rest)
      else removeFirstMatching (fun p => p.matches response response_op) (front :: rest)

/-- Embedding of `QueueResolver::register_request`: pending requests are
appended at the back, so the front is the oldest. -/
def registerRequest (q : List Pending) (p : Pending) : List Pending := q ++ [p]

/-- A concrete genesis-shaped header. -/
def genesisHeader : Header :=
  { version := 1
    parents_by_level := []
    hash_merkle_root := List.replicate 32 0
    accepted_id_merkle_root := List.replicate 32 0
    utxo_commitment := List.replicate 32 0
    timestamp := 0
    bits := 0x207FFFFF
    nonce := 0
    daa_score := 0
    blue_work := 0
    blue_score := 0
    pruning_point := List.replicate 32 0 }

/-- The connection-request-map invariant: every request with a positive
attempt count is permanent. -/
def requestsInvariant (requests : List (SockAddr × ConnectionRequest)) : Prop :=
  ∀ e ∈ requests, 0 < e.2.attempts → e.2.is_permanent = true

instance requestsInvariantDec (l : List (SockAddr × ConnectionRequest)) :
    Decidable (requestsInvariant l) := by
  unfold requestsInvariant
  infer_instance

/-- The S-box used by the memory-hard stage of
`State::calculate_pow(nonce)`: `mem_hash` generates it from the
nonce-dependent mixed hash and the target. -/
def sboxOf (s : State) (nonce : Nat) : List Nat :=
  generate_sbox (u256ToLeBytes (powMixedHash s nonce)) s.target

/-- A concrete PoW state: pre-PoW hash bytes 0..31 (packed little-endian),
timestamp 0, zero Merkle root and zero target. -/
def c1State : State :=
  ⟨0, 14074904626401341155369551180448584754667373453244490859944217516317499064576,
   0, List.replicate 32 0⟩

/-- The target of the C3 counterexample: bit length 256, so the closeness
threshold is `2^224` and the comparison bound is the all-ones 256-bit
value — every preliminary value is close. -/
def c3Target : Nat := 2 ^ 256 - 2 ^ 224 - 1

/-- Test vector: BLAKE3 of the three bytes of the ASCII string abc (digest
bytes read as a little-endian integer). -/
theorem blake3Hash_abc_vector : fromLeBytes (blake3Hash [97, 98, 99]) =
    60436314034710808446896161650650883247442563149960979418805837666901550118756 := by decide

/-- Test vector: BLAKE3 of the 80-byte input 0,1,...,79 (a two-block chunk,
the shape hashed by `finalize_with_nonce`). -/
theorem blake3Hash_80_vector : fromLeBytes (blake3Hash (List.range 80)) =
    111662923314458472146364137307085738039949677981471844915747001764217486796874 := by decide

/-- Splitting the Keccak permutation into its first and second twelve
rounds. -/
theorem keccakF_split (st mid out : Nat)
    (h1 : (List.range' 0 12).foldl keccakRound st = mid)
    (h2 : (List.range' 12 12).foldl keccakRound mid = out) :
    keccakF st = out := by
  show (List.range 24).foldl keccakRound st = out
  rw [show List.range 24 = List.range' 0 12 ++ List.range' 12 12 from by decide,
    List.foldl_append, h1, h2]

/-- A packed SHA3-256 digest computed through the two Keccak halves. -/
theorem sha3_256packed_split (msg len st mid out : Nat)
    (hst : (msg % 2 ^ (8 * len)) ^^^ (6 <<< (8 * len)) ^^^ (128 <<< 1080) = st)
    (h1 : (List.range' 0 12).foldl keccakRound st = mid)
    (h2 : (List.range' 12 12).foldl keccakRound mid = out) :
    sha3_256packed msg len = out % 2 ^ 256 := by
  show keccakF ((msg % 2 ^ (8 * len)) ^^^ (6 <<< (8 * len)) ^^^ (128 <<< 1080)) % 2 ^ 256 = _
  rw [hst, keccakF_split st mid out h1 h2]

/-- Test vector: the first eight ChaCha20 keystream bytes for the all-zero
seed. -/
theorem chacha_zero_vector : fromLeBytes (chachaFillBytes (List.replicate 32 0) 8) =
    10393729187455219830 := by decide

/-- C2: `State::check_pow(nonce)` returns `(true, pow)` exactly when the
final 32-byte PoW output of `calculate_pow(nonce)`, read as a little-endian
256-bit integer, is at most the target decoded from the header's compact
bits field, and `(false, pow)` otherwise. -/
theorem C2_check_pow_iff_le_target : ∀ (h : Header) (nonce : Nat),
    check_pow (State.new h) nonce =
      (decide (fromLeBytes (powFinalHash (State.new h) nonce) ≤ from_compact_target_bits h.bits),
       fromLeBytes (powFinalHash (State.new h) nonce)) ∧
    ((check_pow (State.new h) nonce).1 = true ↔
      fromLeBytes (powFinalHash (State.new h) nonce) ≤ from_compact_target_bits h.bits) := by
  intro h nonce
  constructor
  · rfl
  · simp [check_pow, calculate_pow, State.new]

/-- C8: `calculate_hash_rounds` equals the first four little-endian bytes of
the BLAKE3 hash of the block hash and the seed, modulo 16, plus 16, and lies
in the range 16–31. -/
theorem C8_calculate_hash_rounds_range : ∀ (block_hash : List Nat) (seed : Nat),
    calculate_hash_rounds block_hash seed =
      readU32LE (blake3Hash (block_hash ++ toLeBytes8 seed)) 0 % 16 + 16 ∧
    16 ≤ calculate_hash_rounds block_hash seed ∧
    calculate_hash_rounds block_hash seed ≤ 31 := by
  intro bh s
  refine ⟨rfl, Nat.le_add_left 16 _, ?_⟩
  have h : readU32LE (blake3Hash (bh ++ toLeBytes8 s)) 0 % 16 < 16 :=
    Nat.mod_lt _ (by norm_num)
  unfold calculate_hash_rounds
  omega

/-- C9: a header with an empty `parents_by_level` vector (genesis-shaped)
makes `calc_block_level_check_pow` return the maximum block level and a
passing PoW check, short-circuiting before any hashing. -/
theorem C9_genesis_level_and_pow : ∀ (h : Header) (max_block_level : Nat),
    h.parents_by_level = [] →
    calc_block_level_check_pow h max_block_level = (max_block_level, true) := by
  intro h L hp
  simp [calc_block_level_check_pow, hp]

/-- Witness for C9 at a concrete genesis-shaped header and level 225. -/
theorem C9_witness :
    genesisHeader.parents_by_level = [] ∧
    calc_block_level_check_pow genesisHeader 225 = (225, true) :=
  ⟨rfl, C9_genesis_level_and_pow genesisHeader 225 rfl⟩

/-- Auxiliary: `bitLen` of zero is zero for every fuel. -/
theorem bitLen_zero_eq : ∀ fuel, bitLen fuel 0 = 0 := by
  intro fuel
  cases fuel <;> simp [bitLen]

/-- With enough fuel, `bitLen` of a positive value is the position of its
highest set bit plus one: the value is sandwiched between consecutive powers
of two. -/
theorem bitLen_sandwich : ∀ (fuel n : Nat), n < 2 ^ fuel → 0 < n →
    2 ^ (bitLen fuel n - 1) ≤ n ∧ n < 2 ^ bitLen fuel n := by
  intro fuel
  induction fuel with
  | zero => intro n hlt hpos; simp at hlt; omega
  | succ f ih =>
    intro n hlt hpos
    have hne : n ≠ 0 := Nat.pos_iff_ne_zero.mp hpos
    rw [bitLen, if_neg hne]
    by_cases hhalf : n / 2 = 0
    · have hn1 : n = 1 := by omega
      subst hn1
      rw [hhalf, bitLen_zero_eq]
      norm_num
    · have hhlt : n / 2 < 2 ^ f := by
        rw [Nat.pow_succ] at hlt
        omega
      obtain ⟨hlo, hhi⟩ := ih (n / 2) hhlt (Nat.pos_of_ne_zero hhalf)
      set b := bitLen f (n / 2) with hbdef
      have hb1 : 1 ≤ b := by
        rcases Nat.eq_zero_or_pos b with h0 | h1
        · rw [h0] at hhi; simp at hhi; omega
        · exact h1
      have h2 : 2 ^ b = 2 ^ (b - 1) * 2 := by
        conv_lhs => rw [show b = (b - 1) + 1 by omega]
        rw [Nat.pow_succ]
      have h3 : 2 ^ (b + 1) = 2 ^ b * 2 := Nat.pow_succ 2 b
      have hred : b + 1 - 1 = b := by omega
      rw [hred]
      omega

/-- C7: `calc_level_from_pow(pow, max_block_level)` is
`max(0, max_block_level - bitlength(pow))`, never negative (the result is a
natural number equal to the truncated subtraction) and never above the
maximum level; for positive `pow` below `2^256` the modelled bit length
satisfies `2^(bits-1) ≤ pow < 2^bits`, so it is one plus the position of the
highest set bit. -/
theorem C7_calc_level_from_pow : ∀ (pow max_block_level : Nat),
    max_block_level < 256 → pow < 2 ^ 256 →
    ((calc_level_from_pow pow max_block_level : Int) =
      max ((max_block_level : Int) - (uint256Bits pow : Int)) 0 ∧
     calc_level_from_pow pow max_block_level = max_block_level - uint256Bits pow ∧
     calc_level_from_pow pow max_block_level ≤ max_block_level ∧
     (0 < pow → 2 ^ (uint256Bits pow - 1) ≤ pow ∧ pow < 2 ^ uint256Bits pow)) := by
  intro p L hL hp
  have hmain : calc_level_from_pow p L = L - uint256Bits p := by
    unfold calc_level_from_pow
    have h1 : Int.toNat (max ((L : Int) - (uint256Bits p : Int)) 0) = L - uint256Bits p := by
      omega
    rw [h1]
    exact Nat.mod_eq_of_lt (by omega)
  refine ⟨?_, hmain, ?_, fun hppos => bitLen_sandwich 256 p hp hppos⟩
  · rw [hmain]; omega
  · rw [hmain]; omega

/-- Witness for C7 at `pow = 5`, `max_block_level = 10` (the bit length of 5
is 3, so the level is 7). -/
theorem C7_witness :
    calc_level_from_pow 5 10 = 10 - uint256Bits 5 ∧
    calc_level_from_pow 5 10 ≤ 10 ∧
    2 ^ (uint256Bits 5 - 1) ≤ 5 ∧ 5 < 2 ^ uint256Bits 5 := by
  have h := C7_calc_level_from_pow 5 10 (by norm_num) (by norm_num)
  exact ⟨h.2.1, h.2.2.1, (h.2.2.2 (by norm_num)).1, (h.2.2.2 (by norm_num)).2⟩

/-- C4: a permanent connection request that is not connected and due for an
attempt is, on failure with prior attempt count `a`, re-scheduled with
`next_attempt = now + 30 * 2 ^ min(a, 4)` seconds and attempt count `a + 1`
(delays start at 30 s, double per failure and are capped at 480 s), and on
success is kept in the request map with its attempt count reset to 0. -/
theorem C4_permanent_retry_backoff : ∀ (now : Nat) (is_connected connect_ok : SockAddr → Bool)
    (requests : List (SockAddr × ConnectionRequest)) (address : SockAddr) (t a : Nat),
    (address, ⟨t, true, a⟩) ∈ requests →
    is_connected address = false → t ≤ now →
    ((connect_ok address = false →
       (address, ⟨now + 30 * 2 ^ min a 4, true, a + 1⟩) ∈
         handle_connection_requests now is_connected connect_ok requests) ∧
     (connect_ok address = true →
       (address, ⟨now, true, 0⟩) ∈
         handle_connection_requests now is_connected connect_ok requests) ∧
     30 * 2 ^ min a 4 ≤ 480) := by
  intro now conn ok reqs addr t a hmem hconn ht
  have hcap : 30 * 2 ^ min a 4 ≤ 480 := by
    have h16 : 2 ^ min a 4 ≤ 2 ^ 4 :=
      Nat.pow_le_pow_right (by norm_num) (Nat.min_le_right a 4)
    omega
  refine ⟨?_, ?_, hcap⟩
  · intro hok
    rw [handle_connection_requests, List.mem_filterMap]
    refine ⟨(addr, ⟨t, true, a⟩), hmem, ?_⟩
    simp [processRequest, hconn, hok, ht]
  · intro hok
    rw [handle_connection_requests, List.mem_filterMap]
    refine ⟨(addr, ⟨t, true, a⟩), hmem, ?_⟩
    simp [processRequest, hconn, hok, ht, ConnectionRequest.new]

/-- Witness for C4: a due permanent request with two prior attempts retried
at `now = 130`, scheduled 120 s later with three attempts; the cap holds. -/
theorem C4_witness :
    ((⟨7, 16111⟩ : SockAddr), (⟨130 + 30 * 2 ^ min 2 4, true, 3⟩ : ConnectionRequest)) ∈
      handle_connection_requests 130 (fun _ => false) (fun _ => false)
        [(⟨7, 16111⟩, ⟨50, true, 2⟩)] ∧
    30 * 2 ^ min 2 4 ≤ 480 :=
  ⟨(C4_permanent_retry_backoff 130 (fun _ => false) (fun _ => false)
      [(⟨7, 16111⟩, ⟨50, true, 2⟩)] ⟨7, 16111⟩ 50 2 (by simp) rfl (by norm_num)).1 rfl,
   (C4_permanent_retry_backoff 130 (fun _ => false) (fun _ => false)
      [(⟨7, 16111⟩, ⟨50, true, 2⟩)] ⟨7, 16111⟩ 50 2 (by simp) rfl (by norm_num)).2.2⟩

/-- C5: `ban(ip)` is a no-op (no peer terminated, ban list unchanged) when
some permanent connection request exists on the IP; otherwise every active
peer on the IP is terminated, the remaining peers are exactly those on other
IPs, the request map is untouched and the IP is added to the ban list. -/
theorem C5_ban_effect : ∀ (st : CMState) (ip : Nat),
    (ip_has_permanent_connection st.requests ip = true → ban st ip = st) ∧
    (ip_has_permanent_connection st.requests ip = false →
      ban st ip = { peers := st.peers.filter (fun p => !(p.ip == ip))
                    requests := st.requests
                    banned := ip :: st.banned } ∧
      ∀ p ∈ (ban st ip).peers, p.ip ≠ ip) := by
  intro st ip
  constructor
  · intro hperm
    rw [ban, if_pos hperm]
  · intro hperm
    have hb : ban st ip = { peers := st.peers.filter (fun p => !(p.ip == ip))
                            requests := st.requests
                            banned := ip :: st.banned } := by
      rw [ban, if_neg (by rw [hperm]; exact Bool.false_ne_true)]
    refine ⟨hb, ?_⟩
    intro p hp
    rw [hb] at hp
    simp only [List.mem_filter] at hp
    simpa using hp.2

/-- Witness for C5: banning IP 1 is a no-op when a permanent request on IP 1
exists, and with no requests it removes exactly the peers on IP 1 and bans
it. -/
theorem C5_witness :
    ban ⟨[⟨1, 2⟩], [(⟨1, 5⟩, ⟨0, true, 0⟩)], []⟩ 1 =
      ⟨[⟨1, 2⟩], [(⟨1, 5⟩, ⟨0, true, 0⟩)], []⟩ ∧
    ban ⟨[⟨1, 2⟩, ⟨3, 4⟩], [], []⟩ 1 =
      { peers := [(⟨1, 2⟩ : SockAddr), ⟨3, 4⟩].filter (fun p => !(p.ip == 1))
        requests := []
        banned := [1] } :=
  ⟨(C5_ban_effect ⟨[⟨1, 2⟩], [(⟨1, 5⟩, ⟨0, true, 0⟩)], []⟩ 1).1 (by decide),
   ((C5_ban_effect ⟨[⟨1, 2⟩, ⟨3, 4⟩], [], []⟩ 1).2 (by decide)).1⟩

/-- Every entry `processRequest` keeps either has attempt count 0, is
permanent, or is the unchanged input entry. -/
theorem processRequest_attempts : ∀ (now : Nat) (is_connected connect_ok : Bool)
    (address : SockAddr) (request : ConnectionRequest) (e : SockAddr × ConnectionRequest),
    processRequest now is_connected connect_ok address request = some e →
    e.2.attempts = 0 ∨ e.2.is_permanent = true ∨ e.2 = request := by
  intro now conn ok addr req e
  unfold processRequest
  split_ifs with h1 h2 h3 h4 h5 <;> intro he
  · exact he.elim
  · have hp := Option.some.inj he
    subst hp
    simp
  · exact he.elim
  · have hp := Option.some.inj he
    subst hp
    simp [ConnectionRequest.new]
  · exact he.elim
  · have hp := Option.some.inj he
    subst hp
    simp

/-- C10: invariant of the connection-request map — every request with a
positive attempt count is permanent.  The invariant is preserved by
`handle_connection_requests` and by `add_connection_request` (which only
inserts requests with attempt count 0); moreover a non-permanent request is
dropped once its peer is connected, and removed after its first failed due
connection attempt rather than retried. -/
theorem C10_nonpermanent_never_retried : ∀ (now : Nat)
    (is_connected connect_ok : SockAddr → Bool)
    (requests : List (SockAddr × ConnectionRequest)) (address : SockAddr) (perm : Bool),
    requestsInvariant requests →
    (requestsInvariant (handle_connection_requests now is_connected connect_ok requests) ∧
     requestsInvariant (add_connection_request now address perm requests) ∧
     (∀ (okb : Bool) (t a : Nat), processRequest now true okb address ⟨t, false, a⟩ = none) ∧
     (∀ (t a : Nat), t ≤ now → processRequest now false false address ⟨t, false, a⟩ = none)) := by
  intro now conn ok reqs addr perm hinv
  refine ⟨?_, ?_, ?_, ?_⟩
  · intro e he hatt
    rw [handle_connection_requests, List.mem_filterMap] at he
    obtain ⟨x, hx, hpx⟩ := he
    rcases processRequest_attempts now (conn x.1) (ok x.1) x.1 x.2 e hpx with h0 | hperm | heq
    · omega
    · exact hperm
    · rw [heq] at hatt ⊢
      exact hinv x hx hatt
  · intro e he hatt
    rw [add_connection_request] at he
    rcases List.mem_cons.mp he with h0 | hmem
    · rw [h0] at hatt
      simp [ConnectionRequest.new] at hatt
    · exact hinv e (List.mem_of_mem_filter hmem) hatt
  · intro okb t a
    simp [processRequest]
  · intro t a ht
    simp [processRequest, ht]

/-- Witness for C10: the invariant holds for a concrete map with one
permanent, once-attempted request, is preserved by an iteration, and a
non-permanent due request is dropped after its failed attempt. -/
theorem C10_witness :
    requestsInvariant (handle_connection_requests 5 (fun _ => false) (fun _ => false)
      [(⟨1, 1⟩, ⟨0, true, 1⟩)]) ∧
    requestsInvariant (add_connection_request 5 ⟨2, 2⟩ false [(⟨1, 1⟩, ⟨0, true, 1⟩)]) ∧
    processRequest 5 false false ⟨2, 2⟩ ⟨0, false, 3⟩ = none :=
  ⟨(C10_nonpermanent_never_retried 5 (fun _ => false) (fun _ => false)
      [(⟨1, 1⟩, ⟨0, true, 1⟩)] ⟨2, 2⟩ false (by decide)).1,
   (C10_nonpermanent_never_retried 5 (fun _ => false) (fun _ => false)
      [(⟨1, 1⟩, ⟨0, true, 1⟩)] ⟨2, 2⟩ false (by decide)).2.1,
   (C10_nonpermanent_never_retried 5 (fun _ => false) (fun _ => false)
      [(⟨1, 1⟩, ⟨0, true, 1⟩)] ⟨2, 2⟩ false (by decide)).2.2.2 0 3 (by decide)⟩

/-- The queue scan removes exactly the first matching entry: it returns the
first match (if any) and the queue with that entry erased, all other entries
kept in order. -/
theorem removeFirstMatching_eq : ∀ (m : Pending → Bool) (q : List Pending),
    removeFirstMatching m q = (q.find? m, q.eraseP m) := by
  intro m q
  induction q with
  | nil => rfl
  | cons x xs ih =>
    by_cases hm : m x = true
    · rw [removeFirstMatching, if_pos hm, List.find?_cons_of_pos _ hm,
        List.eraseP_cons_of_pos hm]
    · rw [removeFirstMatching, if_neg hm, List.find?_cons_of_neg _ hm,
        List.eraseP_cons_of_neg hm]
      show ((removeFirstMatching m xs).1, x :: (removeFirstMatching m xs).2) = _
      rw [ih]

/-- C6: for a response carrying a payload, `handle_response` completes and
removes exactly the oldest (front-most) pending request matching the
response — same payload operation and matching contents per the `Matcher` —
leaving all other pending requests in their original order (`List.eraseP`),
and leaves the queue unchanged when no pending request matches. -/
theorem C6_handle_response_fifo : ∀ (pl : RespPayload) (q : List Pending),
    (handleResponse ⟨some pl⟩ q =
      (q.find? (fun p => p.matches ⟨some pl⟩ (respPayloadOp pl)),
       q.eraseP (fun p => p.matches ⟨some pl⟩ (respPayloadOp pl)))) ∧
    ((∀ p ∈ q, p.matches ⟨some pl⟩ (respPayloadOp pl) = false) →
      handleResponse ⟨some pl⟩ q = (none, q)) := by
  intro pl q
  have hmain : handleResponse ⟨some pl⟩ q =
      (q.find? (fun p => p.matches ⟨some pl⟩ (respPayloadOp pl)),
       q.eraseP (fun p => p.matches ⟨some pl⟩ (respPayloadOp pl))) := by
    cases q with
    | nil => rfl
    | cons front rest =>
      by_cases hm : front.matches ⟨some pl⟩ (respPayloadOp pl) = true
      · show (if front.matches ⟨some pl⟩ (respPayloadOp pl) then (some front, rest)
          else removeFirstMatching (fun p => p.matches ⟨some pl⟩ (respPayloadOp pl))
            (front :: rest)) = _
        rw [if_pos hm]
        simp [List.find?_cons, List.eraseP_cons, hm]
      · show (if front.matches ⟨some pl⟩ (respPayloadOp pl) then (some front, rest)
          else removeFirstMatching (fun p => p.matches ⟨some pl⟩ (respPayloadOp pl))
            (front :: rest)) = _
        rw [if_neg hm, removeFirstMatching_eq]
  refine ⟨hmain, ?_⟩
  intro hnone
  rw [hmain]
  have hf : q.find? (fun p => p.matches ⟨some pl⟩ (respPayloadOp pl)) = none := by
    rw [List.find?_eq_none]
    intro x hx
    rw [hnone x hx]
    exact Bool.false_ne_true
  have he : q.eraseP (fun p => p.matches ⟨some pl⟩ (respPayloadOp pl)) = q := by
    apply List.eraseP_of_forall_not
    intro a ha
    rw [hnone a ha]
    exact Bool.false_ne_true
  rw [hf, he]

/-- Witness for C6: a response with operation code 3 against a queue holding
one pending request with operation code 4 matches nothing and leaves the
queue unchanged. -/
theorem C6_witness :
    handleResponse ⟨some (RespPayload.otherResponse 3)⟩ [⟨4, ⟨none⟩⟩] =
      (none, [⟨4, ⟨none⟩⟩]) :=
  (C6_handle_response_fifo (RespPayload.otherResponse 3) [⟨4, ⟨none⟩⟩]).2 (by decide)

/-- First Keccak half for `c1_kA`. -/
theorem c1_kA_k1 : (List.range' 0 12).foldl keccakRound
    1658079259093488585543641880321370579349968074867852233579735924960709341741017881738939463282172923864572541864483323178105313176664420162494573772314529873277070739673631632297712908223227628267436176822048727601659965304215082599895424905003375579928121124592957068944312017848333481180587415337390928852804259469127929954560 =
    7332948433108156251360783004120893229450162205138619074676772288452600408319779831738596422609535034392879846075501703435313521486132035901568706864752990379322262270942637805817884223095111624143854922003876746375030362260013952635170245972806237301214634680991577188011973157169646923031176426381117198071582843161631095211205300621645761848755134172955342437381634353185248176327804844631094325141489102387748141080183528287190663165044803804825907978717188495463094360959918582 := by decide

/-- Second Keccak half for `c1_kA`. -/
theorem c1_kA_k2 : (List.range' 12 12).foldl keccakRound
    7332948433108156251360783004120893229450162205138619074676772288452600408319779831738596422609535034392879846075501703435313521486132035901568706864752990379322262270942637805817884223095111624143854922003876746375030362260013952635170245972806237301214634680991577188011973157169646923031176426381117198071582843161631095211205300621645761848755134172955342437381634353185248176327804844631094325141489102387748141080183528287190663165044803804825907978717188495463094360959918582 =
    33222830605946080028384573038289654455207211070230733129791146133122612718040042015436061595290508011570389108584535341388896726188839721128745690116311342380426794462988008114650295018901465035793187143432491578751348792174642184180288323635917765375960144225656744708513801422764456381030674342888010259247075797960618971880248801912605798501589708341578937087035071035125624932812713266708271643831779804386118670120983196898017523192953335798252739647648045307207748823562604777 := by decide

/-- The outer round count at the concrete state: two rounds. -/
theorem c1_rounds_eq : calculate_rounds 14074904626401341155369551180448584754667373453244490859944217516317499064576 0 = 2 := by
  have h := sha3_256packed_split (14074904626401341155369551180448584754667373453244490859944217516317499064576 % 2 ^ 256 + ((0 % 2 ^ 64) <<< 256)) 40
    1658079259093488585543641880321370579349968074867852233579735924960709341741017881738939463282172923864572541864483323178105313176664420162494573772314529873277070739673631632297712908223227628267436176822048727601659965304215082599895424905003375579928121124592957068944312017848333481180587415337390928852804259469127929954560
    7332948433108156251360783004120893229450162205138619074676772288452600408319779831738596422609535034392879846075501703435313521486132035901568706864752990379322262270942637805817884223095111624143854922003876746375030362260013952635170245972806237301214634680991577188011973157169646923031176426381117198071582843161631095211205300621645761848755134172955342437381634353185248176327804844631094325141489102387748141080183528287190663165044803804825907978717188495463094360959918582
    33222830605946080028384573038289654455207211070230733129791146133122612718040042015436061595290508011570389108584535341388896726188839721128745690116311342380426794462988008114650295018901465035793187143432491578751348792174642184180288323635917765375960144225656744708513801422764456381030674342888010259247075797960618971880248801912605798501589708341578937087035071035125624932812713266708271643831779804386118670120983196898017523192953335798252739647648045307207748823562604777
    (by decide) c1_kA_k1 c1_kA_k2
  show (sha3_256packed (14074904626401341155369551180448584754667373453244490859944217516317499064576 % 2 ^ 256 + ((0 % 2 ^ 64) <<< 256)) 40 &&&
    4294967295) % 4 + 1 = 2
  rw [h]
  decide

/-- Checkpoint: the nonce-0 finalized hash at the concrete state. -/
theorem c1_h0_0 : finalize_with_nonce 14074904626401341155369551180448584754667373453244490859944217516317499064576 0 0 =
    74631152300153382200992790446263681950166740538239206451816179690538456111964 := by decide

/-- Checkpoint: first BLAKE3 iteration, nonce 0. -/
theorem c1_b1_0 : bit_manipulations (blake3_hash 74631152300153382200992790446263681950166740538239206451816179690538456111964) =
    80881431228732044930733491296103159789458167824966067386258927951672241468740 := by decide

/-- Checkpoint: second BLAKE3 iteration, nonce 0. -/
theorem c1_b2_0 : bit_manipulations (blake3_hash 80881431228732044930733491296103159789458167824966067386258927951672241468740) =
    96181187715107868763192983039064558361477803284336489215048450357619002420865 := by decide

/-- First Keccak half for the first SHA3 iteration, nonce 0. -/
theorem c1_s1_0_half_k1 : (List.range' 0 12).foldl keccakRound
    1658079259093488585543641880321370579349968074867852233579735924960709341741017881738939463282172923864572541864483323178105313176664420162494573772314529873277070739673631632297712908223227628267436176822048727601659965304215082587079502689477915086334849706088248081477334225619160282224768106229007956760810696220135689531009 =
    13212327967183158105377577889165309400193470051905987689968734744122830109320820120194408868934421402309231637626295382253116371412215579549134549050578246112750845181229959108679212024766853461010883968422606892885803555860871962768795391882343031606102797127710392265321898405560300422442309113747313077137140099035328601621909087993520346211715686275911890756458739242908530676108239506454598132964550779496552514191216736724757649229300043519511447754418059479657666305339432577 := by decide

/-- Second Keccak half for `c1_s1_0_half`. -/
theorem c1_s1_0_half_k2 : (List.range' 12 12).foldl keccakRound
    13212327967183158105377577889165309400193470051905987689968734744122830109320820120194408868934421402309231637626295382253116371412215579549134549050578246112750845181229959108679212024766853461010883968422606892885803555860871962768795391882343031606102797127710392265321898405560300422442309113747313077137140099035328601621909087993520346211715686275911890756458739242908530676108239506454598132964550779496552514191216736724757649229300043519511447754418059479657666305339432577 =
    33173324457194809694461593138021547743981618907732935667716406180767773742084710008072029617215732386350131930215002339467821422987824318203831415706202788195887224785730727193489616426340770043712390995768434643660808921086684662860838499333451191338330794849023827398066591716447600348359257724277572269236408479721169668795575519347712478640632474880269432097679087571105332456708525655003448710912204126749175082039828644901594207888743749711976123421384563547988693140387303485 := by decide

/-- Checkpoint: first SHA3 iteration, nonce 0. -/
theorem c1_s1_0 : bit_manipulations (sha3_hash 96181187715107868763192983039064558361477803284336489215048450357619002420865) =
    44591629587652209714673291272543718140485691082862164172220817423347117691053 := by
  have h := sha3_256packed_split 96181187715107868763192983039064558361477803284336489215048450357619002420865 32
    1658079259093488585543641880321370579349968074867852233579735924960709341741017881738939463282172923864572541864483323178105313176664420162494573772314529873277070739673631632297712908223227628267436176822048727601659965304215082587079502689477915086334849706088248081477334225619160282224768106229007956760810696220135689531009
    13212327967183158105377577889165309400193470051905987689968734744122830109320820120194408868934421402309231637626295382253116371412215579549134549050578246112750845181229959108679212024766853461010883968422606892885803555860871962768795391882343031606102797127710392265321898405560300422442309113747313077137140099035328601621909087993520346211715686275911890756458739242908530676108239506454598132964550779496552514191216736724757649229300043519511447754418059479657666305339432577
    33173324457194809694461593138021547743981618907732935667716406180767773742084710008072029617215732386350131930215002339467821422987824318203831415706202788195887224785730727193489616426340770043712390995768434643660808921086684662860838499333451191338330794849023827398066591716447600348359257724277572269236408479721169668795575519347712478640632474880269432097679087571105332456708525655003448710912204126749175082039828644901594207888743749711976123421384563547988693140387303485
    (by decide) c1_s1_0_half_k1 c1_s1_0_half_k2
  show bit_manipulations (sha3_256packed 96181187715107868763192983039064558361477803284336489215048450357619002420865 32) = _
  rw [h]
  decide

/-- First Keccak half for the second SHA3 iteration, nonce 0. -/
theorem c1_s2_0_half_k1 : (List.range' 0 12).foldl keccakRound
    1658079259093488585543641880321370579349968074867852233579735924960709341741017881738939463282172923864572541864483323178105313176664420162494573772314529873277070739673631632297712908223227628267436176822048727601659965304215082587079502689477915086283260147960792422428814533852639442003775994027533631717983063285863804801197 =
    40230310853460139433212617339015065177113978493203113211108681662503904603256799692842943034013389158332622944467299136229979375458850384556298744979746726847149993065411651321170490837182375193947204232316618339904408984729595669993088128778989720633501548002110932320449097981522095037157148648322533564315656514857499859184835701616242305715421023676425890265398781245284453704010680088288473243956062684606636390190073484186713939272182876962176826845209034147628844548279874019 := by decide

/-- Second Keccak half for `c1_s2_0_half`. -/
theorem c1_s2_0_half_k2 : (List.range' 12 12).foldl keccakRound
    40230310853460139433212617339015065177113978493203113211108681662503904603256799692842943034013389158332622944467299136229979375458850384556298744979746726847149993065411651321170490837182375193947204232316618339904408984729595669993088128778989720633501548002110932320449097981522095037157148648322533564315656514857499859184835701616242305715421023676425890265398781245284453704010680088288473243956062684606636390190073484186713939272182876962176826845209034147628844548279874019 =
    37860265198242948515529946742843377040885201305465843327802981787440447151907357030731217544658027230047652410968685036169819795121332743468153690581460802136464266237185686184268177146037703546341005078395432113075149137396199960858706711359100406666995980013795135544891178548526655609411273667151424896955549605241379278386793376036960303270244447754175595474854892833341727016430307616883535057334810650613852267331312219426333444196925803257222333310539211586275916209110607198 := by decide

/-- Checkpoint: second SHA3 iteration, nonce 0. -/
theorem c1_s2_0 : bit_manipulations (sha3_hash 44591629587652209714673291272543718140485691082862164172220817423347117691053) =
    23103465747320768712270596207690976201844753858625754231984318206533445117243 := by
  have h := sha3_256packed_split 44591629587652209714673291272543718140485691082862164172220817423347117691053 32
    1658079259093488585543641880321370579349968074867852233579735924960709341741017881738939463282172923864572541864483323178105313176664420162494573772314529873277070739673631632297712908223227628267436176822048727601659965304215082587079502689477915086283260147960792422428814533852639442003775994027533631717983063285863804801197
    40230310853460139433212617339015065177113978493203113211108681662503904603256799692842943034013389158332622944467299136229979375458850384556298744979746726847149993065411651321170490837182375193947204232316618339904408984729595669993088128778989720633501548002110932320449097981522095037157148648322533564315656514857499859184835701616242305715421023676425890265398781245284453704010680088288473243956062684606636390190073484186713939272182876962176826845209034147628844548279874019
    37860265198242948515529946742843377040885201305465843327802981787440447151907357030731217544658027230047652410968685036169819795121332743468153690581460802136464266237185686184268177146037703546341005078395432113075149137396199960858706711359100406666995980013795135544891178548526655609411273667151424896955549605241379278386793376036960303270244447754175595474854892833341727016430307616883535057334810650613852267331312219426333444196925803257222333310539211586275916209110607198
    (by decide) c1_s2_0_half_k1 c1_s2_0_half_k2
  show bit_manipulations (sha3_256packed 44591629587652209714673291272543718140485691082862164172220817423347117691053 32) = _
  rw [h]
  decide

/-- Checkpoint: the nonce-1 finalized hash at the concrete state. -/
theorem c1_h0_1 : finalize_with_nonce 14074904626401341155369551180448584754667373453244490859944217516317499064576 0 1 =
    50018424160706934914140329049348760810651058777350604760818520118366664703902 := by decide

/-- Checkpoint: first BLAKE3 iteration, nonce 1. -/
theorem c1_b1_1 : bit_manipulations (blake3_hash 50018424160706934914140329049348760810651058777350604760818520118366664703902) =
    38871696944344765211481402307106389767613725274348088751883462397113561270583 := by decide

/-- Checkpoint: second BLAKE3 iteration, nonce 1. -/
theorem c1_b2_1 : bit_manipulations (blake3_hash 38871696944344765211481402307106389767613725274348088751883462397113561270583) =
    104484543272102908278164504942079580339365589125430218428722732863840316979578 := by decide

/-- First Keccak half for the first SHA3 iteration, nonce 1. -/
theorem c1_s1_1_half_k1 : (List.range' 0 12).foldl keccakRound
    1658079259093488585543641880321370579349968074867852233579735924960709341741017881738939463282172923864572541864483323178105313176664420162494573772314529873277070739673631632297712908223227628267436176822048727601659965304215082587079502689477915086343153061645243120992305747522175304202655892070101685974484978726357004089722 =
    5697942053870024464568724041843047822155171648684012178210838724599292848390443834728416634175001928789482629110700247147720308628588860604884284658047193831934270756135435340673798932539274441897878314645074868326020113718432065569534632601364141158690703847809632737645352895254000620825507839248844463494928795205949532125512905276348744969207787776742053716732277269791659349265963831235430948204739647216920795308671047457014767322846044803521909091549812061169898111070374704 := by decide

/-- Second Keccak half for `c1_s1_1_half`. -/
theorem c1_s1_1_half_k2 : (List.range' 12 12).foldl keccakRound
    5697942053870024464568724041843047822155171648684012178210838724599292848390443834728416634175001928789482629110700247147720308628588860604884284658047193831934270756135435340673798932539274441897878314645074868326020113718432065569534632601364141158690703847809632737645352895254000620825507839248844463494928795205949532125512905276348744969207787776742053716732277269791659349265963831235430948204739647216920795308671047457014767322846044803521909091549812061169898111070374704 =
    14684119460840511400252506461940959583581505040739863755421649556698957110022254932660641587818697003920565213312724722673184716004199346596516649321509046680169837097790210059359366417526984174822843609465175839077162826938487921522185373542967632896951016303874302684163775623336359574083854202348073777512651201094134329154884598873218667127683015760764872398900020483386013793198728059673651794897967900375407853722880390521745705320925108587544650664230853167672777627091161927 := by decide

/-- Checkpoint: first SHA3 iteration, nonce 1. -/
theorem c1_s1_1 : bit_manipulations (sha3_hash 104484543272102908278164504942079580339365589125430218428722732863840316979578) =
    93073987834208679733469976904830366160491803225137397946384506529841385001748 := by
  have h := sha3_256packed_split 104484543272102908278164504942079580339365589125430218428722732863840316979578 32
    1658079259093488585543641880321370579349968074867852233579735924960709341741017881738939463282172923864572541864483323178105313176664420162494573772314529873277070739673631632297712908223227628267436176822048727601659965304215082587079502689477915086343153061645243120992305747522175304202655892070101685974484978726357004089722
    5697942053870024464568724041843047822155171648684012178210838724599292848390443834728416634175001928789482629110700247147720308628588860604884284658047193831934270756135435340673798932539274441897878314645074868326020113718432065569534632601364141158690703847809632737645352895254000620825507839248844463494928795205949532125512905276348744969207787776742053716732277269791659349265963831235430948204739647216920795308671047457014767322846044803521909091549812061169898111070374704
    14684119460840511400252506461940959583581505040739863755421649556698957110022254932660641587818697003920565213312724722673184716004199346596516649321509046680169837097790210059359366417526984174822843609465175839077162826938487921522185373542967632896951016303874302684163775623336359574083854202348073777512651201094134329154884598873218667127683015760764872398900020483386013793198728059673651794897967900375407853722880390521745705320925108587544650664230853167672777627091161927
    (by decide) c1_s1_1_half_k1 c1_s1_1_half_k2
  show bit_manipulations (sha3_256packed 104484543272102908278164504942079580339365589125430218428722732863840316979578 32) = _
  rw [h]
  decide

/-- First Keccak half for the second SHA3 iteration, nonce 1. -/
theorem c1_s2_1_half_k1 : (List.range' 0 12).foldl keccakRound
    1658079259093488585543641880321370579349968074867852233579735924960709341741017881738939463282172923864572541864483323178105313176664420162494573772314529873277070739673631632297712908223227628267436176822048727601659965304215082587079502689477915086331742506207348892447611219484926090023782106169808865492146752392358072111892 =
    43069792825204746398145398734291521271869804245976479161260654836635931572427738924674883374635275287784126663362056138909187510592335175317561318322392310016397911494528453510544241360015096117832923890794867959865049138496383932698439318780082992761904074777243466772080511248014944304116368284862064871884202014375587252786386710451077746500931162141246396731153763063761626478929561851932849376679300069415549225143132347097567293317916622172971622609647712099227435386761739664 := by decide

/-- Second Keccak half for `c1_s2_1_half`. -/
theorem c1_s2_1_half_k2 : (List.range' 12 12).foldl keccakRound
    43069792825204746398145398734291521271869804245976479161260654836635931572427738924674883374635275287784126663362056138909187510592335175317561318322392310016397911494528453510544241360015096117832923890794867959865049138496383932698439318780082992761904074777243466772080511248014944304116368284862064871884202014375587252786386710451077746500931162141246396731153763063761626478929561851932849376679300069415549225143132347097567293317916622172971622609647712099227435386761739664 =
    15172902728734574330846964997001397161506862010066075180758360717076129379186771273589302631756483311363159401043853058325926152020175405097648081394042177397586450476560374641641418602211748478207712566896774126292966027717770549300605315424975493354102526274982076453091259409339707652277756141740876074393857278791646653720413735942770228913848157247970148696159884020883202998953149448053484702825639426089343900657090084133041266282493036617409837567237595831477431774164637005 := by decide

/-- Checkpoint: second SHA3 iteration, nonce 1. -/
theorem c1_s2_1 : bit_manipulations (sha3_hash 93073987834208679733469976904830366160491803225137397946384506529841385001748) =
    10182631741738709617700776895885108996033501588980804510449758836292263957784 := by
  have h := sha3_256packed_split 93073987834208679733469976904830366160491803225137397946384506529841385001748 32
    1658079259093488585543641880321370579349968074867852233579735924960709341741017881738939463282172923864572541864483323178105313176664420162494573772314529873277070739673631632297712908223227628267436176822048727601659965304215082587079502689477915086331742506207348892447611219484926090023782106169808865492146752392358072111892
    43069792825204746398145398734291521271869804245976479161260654836635931572427738924674883374635275287784126663362056138909187510592335175317561318322392310016397911494528453510544241360015096117832923890794867959865049138496383932698439318780082992761904074777243466772080511248014944304116368284862064871884202014375587252786386710451077746500931162141246396731153763063761626478929561851932849376679300069415549225143132347097567293317916622172971622609647712099227435386761739664
    15172902728734574330846964997001397161506862010066075180758360717076129379186771273589302631756483311363159401043853058325926152020175405097648081394042177397586450476560374641641418602211748478207712566896774126292966027717770549300605315424975493354102526274982076453091259409339707652277756141740876074393857278791646653720413735942770228913848157247970148696159884020883202998953149448053484702825639426089343900657090084133041266282493036617409837567237595831477431774164637005
    (by decide) c1_s2_1_half_k1 c1_s2_1_half_k2
  show bit_manipulations (sha3_256packed 93073987834208679733469976904830366160491803225137397946384506529841385001748 32) = _
  rw [h]
  decide

/-- `powMixedHash` unfolded: outer BLAKE3 iterations kept as `b3`, SHA3
iterations over it, XOR-combined. Stated over variables so later rewrites at
literal inputs stay syntactic. -/
theorem powMixedHash_eq (s : State) (n : Nat) :
    powMixedHash s n =
    byte_mixing
      (Nat.iterate (fun h => bit_manipulations (sha3_hash h))
        (calculate_rounds s.pre_pow_hash s.timestamp)
        (Nat.iterate (fun h => bit_manipulations (blake3_hash h))
          (calculate_rounds s.pre_pow_hash s.timestamp)
          (finalize_with_nonce s.pre_pow_hash s.timestamp n)))
      (Nat.iterate (fun h => bit_manipulations (blake3_hash h))
        (calculate_rounds s.pre_pow_hash s.timestamp)
        (finalize_with_nonce s.pre_pow_hash s.timestamp n)) := rfl

/-- Two-fold iteration of the BLAKE3 round step, unfolded over a variable. -/
theorem iterB_two (x : Nat) :
    Nat.iterate (fun h => bit_manipulations (blake3_hash h)) 2 x =
    bit_manipulations (blake3_hash (bit_manipulations (blake3_hash x))) := rfl

/-- Two-fold iteration of the SHA3 round step, unfolded over a variable. -/
theorem iterS_two (x : Nat) :
    Nat.iterate (fun h => bit_manipulations (sha3_hash h)) 2 x =
    bit_manipulations (sha3_hash (bit_manipulations (sha3_hash x))) := rfl

/-- The mixed hash of `calculate_pow` at the concrete state, nonce 0. -/
theorem c1_mix_0 : powMixedHash c1State 0 = 104796162416966953265310961918096482545423491609107475773465531054429329148858 := by
  rw [powMixedHash_eq,
    show c1State.pre_pow_hash =
      14074904626401341155369551180448584754667373453244490859944217516317499064576 from rfl,
    show c1State.timestamp = 0 from rfl,
    c1_rounds_eq, c1_h0_0, iterB_two, c1_b1_0, c1_b2_0, iterS_two, c1_s1_0, c1_s2_0]
  decide

/-- The mixed hash of `calculate_pow` at the concrete state, nonce 1. -/
theorem c1_mix_1 : powMixedHash c1State 1 = 109238948030673758555137628779172300460478991509417528496597548709786854304866 := by
  rw [powMixedHash_eq,
    show c1State.pre_pow_hash =
      14074904626401341155369551180448584754667373453244490859944217516317499064576 from rfl,
    show c1State.timestamp = 0 from rfl,
    c1_rounds_eq, c1_h0_1, iterB_two, c1_b1_1, c1_b2_1, iterS_two, c1_s1_1, c1_s2_1]
  decide

/-- The memory-hard round count at the concrete state, nonce 0. -/
theorem c1_memrounds_0 : memRoundsOf c1State 0 = 21 := by
  show calculate_hash_rounds (u256ToLeBytes (powMixedHash c1State 0)) c1State.timestamp = 21
  rw [c1_mix_0]
  decide

/-- The memory-hard round count at the concrete state, nonce 1. -/
theorem c1_memrounds_1 : memRoundsOf c1State 1 = 18 := by
  show calculate_hash_rounds (u256ToLeBytes (powMixedHash c1State 1)) c1State.timestamp = 18
  rw [c1_mix_1]
  decide

/-- The S-boxes generated from the two mixed hashes differ (their byte
strings read as different little-endian values). -/
theorem c1_sbox_values_ne :
    fromLeBytes (generate_sbox (u256ToLeBytes 104796162416966953265310961918096482545423491609107475773465531054429329148858) 0) ≠
    fromLeBytes (generate_sbox (u256ToLeBytes 109238948030673758555137628779172300460478991509417528496597548709786854304866) 0) := by decide

/-- C1 counterexample: at the fixed header state `c1State`, the memory-hard
round count used inside `State::calculate_pow` differs between nonce 0
(21 rounds) and nonce 1 (18 rounds), and the S-boxes differ as well — the
round count and S-box of the memory-hard stage are not functions of header
fields only. -/
theorem C1_counterexample :
    memRoundsOf c1State 0 ≠ memRoundsOf c1State 1 ∧
    memRoundsOf c1State 0 = 21 ∧ memRoundsOf c1State 1 = 18 ∧
    sboxOf c1State 0 ≠ sboxOf c1State 1 := by
  have hs0 : sboxOf c1State 0 = generate_sbox (u256ToLeBytes 104796162416966953265310961918096482545423491609107475773465531054429329148858) 0 := by
    show generate_sbox (u256ToLeBytes (powMixedHash c1State 0)) c1State.target = _
    rw [c1_mix_0]
    rfl
  have hs1 : sboxOf c1State 1 = generate_sbox (u256ToLeBytes 109238948030673758555137628779172300460478991509417528496597548709786854304866) 0 := by
    show generate_sbox (u256ToLeBytes (powMixedHash c1State 1)) c1State.target = _
    rw [c1_mix_1]
    rfl
  refine ⟨?_, c1_memrounds_0, c1_memrounds_1, ?_⟩
  · rw [c1_memrounds_0, c1_memrounds_1]
    decide
  · rw [hs0, hs1]
    intro h
    exact absurd (congrArg fromLeBytes h) c1_sbox_values_ne

/-- C1 (amended): the outer hash-round count used by
`State::calculate_pow(nonce)` is a function of the pre-PoW hash and
timestamp only — identical for every pair of nonces and always in the range
1–4; the memory-hard round count and the S-box, by contrast, are derived
from the nonce-dependent mixed hash (see the counterexample). -/
theorem C1_outer_rounds_nonce_independent : ∀ (s : State) (n1 n2 : Nat),
    powRoundsOf s n1 = powRoundsOf s n2 ∧
    powRoundsOf s n1 = calculate_rounds s.pre_pow_hash s.timestamp ∧
    1 ≤ powRoundsOf s n1 ∧ powRoundsOf s n1 ≤ 4 := by
  intro s n1 n2
  refine ⟨rfl, rfl, Nat.le_add_left 1 _, ?_⟩
  have h : (sha3_256packed (s.pre_pow_hash % 2 ^ 256 + ((s.timestamp % 2 ^ 64) <<< 256)) 40 &&&
      4294967295) % 4 < 4 :=
    Nat.mod_lt _ (by norm_num)
  unfold powRoundsOf calculate_rounds
  omega

/-- Bytes produced by `toLeBytes4` are below 256. -/
theorem toLeBytes4_mem_lt : ∀ (w b : Nat), b ∈ toLeBytes4 w → b < 256 := by
  intro w b hb
  simp [toLeBytes4] at hb
  rcases hb with h | h | h | h <;> omega

/-- Bytes produced by `u32_array_to_u8_array` are below 256. -/
theorem u32_array_bytes_lt : ∀ (l : List Nat) (b : Nat),
    b ∈ u32_array_to_u8_array l → b < 256 := by
  intro l
  induction l with
  | nil => intro b hb; simp [u32_array_to_u8_array] at hb
  | cons w ws ih =>
    intro b hb
    have : u32_array_to_u8_array (w :: ws) = toLeBytes4 w ++ u32_array_to_u8_array ws := rfl
    rw [this] at hb
    rcases List.mem_append.mp hb with h | h
    · exact toLeBytes4_mem_lt w b h
    · exact ih b h

/-- `u32_array_to_u8_array` yields four bytes per word. -/
theorem u32_array_length : ∀ (l : List Nat),
    (u32_array_to_u8_array l).length = 4 * l.length := by
  intro l
  induction l with
  | nil => rfl
  | cons w ws ih =>
    have : u32_array_to_u8_array (w :: ws) = toLeBytes4 w ++ u32_array_to_u8_array ws := rfl
    rw [this, List.length_append, ih]
    simp [toLeBytes4]
    omega

/-- A list of bytes below 256 reads as a value below `256 ^ length`. -/
theorem fromLeBytes_lt : ∀ (l : List Nat), (∀ b ∈ l, b < 256) →
    fromLeBytes l < 256 ^ l.length := by
  intro l
  induction l with
  | nil => intro _; simp [fromLeBytes]
  | cons b bs ih =>
    intro h
    have hb : b < 256 := h b (List.mem_cons_self b bs)
    have hrest : fromLeBytes bs < 256 ^ bs.length :=
      ih (fun x hx => h x (List.mem_cons_of_mem b hx))
    have hstep : fromLeBytes (b :: bs) = b + 256 * fromLeBytes bs := rfl
    rw [hstep, List.length_cons, Nat.pow_succ]
    omega

/-- Iterating a function preserves an invariant it preserves stepwise. -/
theorem iterate_preserves {α : Type} (f : α → α) (P : α → Prop)
    (hstep : ∀ x, P x → P (f x)) : ∀ (n : Nat) (x : α), P x → P (Nat.iterate f n x) := by
  intro n
  induction n with
  | zero => intro x hx; exact hx
  | succ k ih =>
    intro x hx
    rw [Function.iterate_succ_apply]
    exact ih (f x) (hstep x hx)

/-- Folding a function preserves an invariant it preserves stepwise. -/
theorem foldl_preserves {α β : Type} (g : β → α → β) (P : β → Prop)
    (hstep : ∀ b a, P b → P (g b a)) : ∀ (l : List α) (b : β), P b → P (l.foldl g b) := by
  intro l
  induction l with
  | nil => intro b hb; exact hb
  | cons x xs ih =>
    intro b hb
    rw [List.foldl_cons]
    exact ih (g b x) (hstep b x hb)

/-- The Feistel pass keeps an 8-word result array 8 words long. -/
theorem apply_feistel_network_length : ∀ (result sbox : List Nat),
    result.length = 8 → (apply_feistel_network result sbox).length = 8 := by
  intro result sbox h8
  unfold apply_feistel_network
  have htemp : ((List.range 4).foldl
      (fun t i =>
        lset t i (lget t i ^^^
          rotl32 ((lget t (i + 4) + lget sbox ((lget t i &&& 0xFF) % sbox.length)) % 4294967296) 7))
      result).length = 8 := by
    refine foldl_preserves _ (fun t => t.length = 8) ?_ (List.range 4) result h8
    intro t i ht
    simp [lset, ht]
  simp [htemp]

/-- One memory-hard round keeps the result array 8 words long. -/
theorem process_round_length : ∀ (result : List Nat) (nonce : Nat) (memory : List Nat)
    (h_mem h_mem_u32 window_elements : Nat) (sbox : List Nat) (is_close_hash : Bool),
    result.length = 8 →
    ((process_round result nonce memory h_mem h_mem_u32 window_elements sbox is_close_hash).1).length = 8 := by
  intro result nonce memory h_mem h_mem_u32 we sbox close h8
  unfold process_round
  have hfe := apply_feistel_network_length result sbox h8
  refine foldl_preserves _ (fun acc : List Nat × List Nat × Nat => acc.1.length = 8) ?_
    (List.range 8) _ hfe
  intro b a hb
  simp [lset, hb]

/-- The initial phase of `mem_hash` produces an 8-word result array. -/
theorem memHashPhase1_length : ∀ (block_hash : List Nat) (seed nonce : Nat)
    (merkle_root : List Nat) (target : Nat),
    ((memHashPhase1 block_hash seed nonce merkle_root target).1).length = 8 := by
  intro bh seed nonce mr t
  unfold memHashPhase1
  have hinit : (initResult bh).length = 8 := by simp [initResult]
  exact iterate_preserves _ (fun rm : List Nat × List Nat => rm.1.length = 8)
    (fun x hx => process_round_length x.1 _ x.2 _ _ _ _ _ hx) _ _ hinit

/-- The preliminary value of `mem_hash` is a 256-bit quantity. -/
theorem memHashPreliminary_lt : ∀ (block_hash : List Nat) (seed nonce : Nat)
    (merkle_root : List Nat) (target : Nat),
    memHashPreliminary block_hash seed nonce merkle_root target < 2 ^ 256 := by
  intro bh seed nonce mr t
  unfold memHashPreliminary
  have hlt := fromLeBytes_lt (u32_array_to_u8_array (memHashPhase1 bh seed nonce mr t).1)
    (fun b hb => u32_array_bytes_lt _ b hb)
  rw [u32_array_length, memHashPhase1_length] at hlt
  have h2 : (256 : Nat) ^ (4 * 8) = 2 ^ 256 := by norm_num
  rw [h2] at hlt
  exact hlt

/-- When the closeness condition holds and the close-hash size is within the
8 MiB cap, the final scratchpad size is the close-hash size. -/
theorem memHashFinalMemSize_close : ∀ (block_hash : List Nat) (seed nonce : Nat)
    (merkle_root : List Nat) (target : Nat),
    memHashPreliminary block_hash seed nonce merkle_root target ≤
      uadd256 target (closenessThreshold target) →
    (calculate_memory_size block_hash seed nonce merkle_root target true).1 ≤ 8 * 1024 * 1024 →
    memHashFinalMemSize block_hash seed nonce merkle_root target =
      (calculate_memory_size block_hash seed nonce merkle_root target true).1 := by
  intro bh seed nonce mr t h1 h2
  simp only [memHashFinalMemSize]
  rw [if_pos h1, if_pos h2]

/-- The close-hash scratchpad size lies between 4 000 KiB and 7 999 KiB. -/
theorem close_size_bounds : ∀ (block_hash : List Nat) (seed nonce : Nat)
    (merkle_root : List Nat) (target : Nat),
    4096000 ≤ (calculate_memory_size block_hash seed nonce merkle_root target true).1 ∧
    (calculate_memory_size block_hash seed nonce merkle_root target true).1 ≤ 8190976 := by
  intro bh seed nonce mr t
  have hm : readU32LE (blake3Hash (mr ++ bh ++ toLeBytes8 seed ++ toLeBytes8 nonce ++
      u256ToLeBytes t ++ closeHashTag)) 0 % (8000 - 4000) < 4000 :=
    Nat.mod_lt _ (by norm_num)
  show 4096000 ≤ (4000 + readU32LE (blake3Hash (mr ++ bh ++ toLeBytes8 seed ++
      toLeBytes8 nonce ++ u256ToLeBytes t ++ closeHashTag)) 0 % (8000 - 4000)) * 1024 ∧
    (4000 + readU32LE (blake3Hash (mr ++ bh ++ toLeBytes8 seed ++ toLeBytes8 nonce ++
      u256ToLeBytes t ++ closeHashTag)) 0 % (8000 - 4000)) * 1024 ≤ 8190976
  omega

/-- C3 counterexample: at target `c3Target` (zero block hash, seed 0,
nonce 0, zero Merkle root) the scratchpad `mem_hash` ends up mixing over is
the close-hash buffer of at least 4 096 000 bytes, not 4096 bytes — the
scratchpad size is not the same 4 KiB for every call. -/
theorem C3_counterexample :
    memHashFinalMemSize (List.replicate 32 0) 0 0 (List.replicate 32 0) c3Target ≠ 4096 := by
  have h1 : uadd256 c3Target (closenessThreshold c3Target) = 2 ^ 256 - 1 := by decide
  have h2 := memHashPreliminary_lt (List.replicate 32 0) 0 0 (List.replicate 32 0) c3Target
  have hcond : memHashPreliminary (List.replicate 32 0) 0 0 (List.replicate 32 0) c3Target ≤
      uadd256 c3Target (closenessThreshold c3Target) := by omega
  have hb := close_size_bounds (List.replicate 32 0) 0 0 (List.replicate 32 0) c3Target
  have hcap : (calculate_memory_size (List.replicate 32 0) 0 0 (List.replicate 32 0)
      c3Target true).1 ≤ 8 * 1024 * 1024 := by omega
  rw [memHashFinalMemSize_close (List.replicate 32 0) 0 0 (List.replicate 32 0) c3Target
    hcond hcap]
  omega

/-- C3 (amended): the scratchpad of `mem_hash` is initially 4096 bytes for
every call (`calculate_memory_size` with `is_close_hash = false`), filled by
a ChaCha20 keystream seeded with the block hash rather than by iterated
BLAKE3; when the preliminary value falls within the closeness threshold of
the target, the scratchpad is resized to a close-hash buffer of
4 096 000–8 190 976 bytes, so the final size is either 4096 bytes or in that
range. -/
theorem C3_initial_scratchpad_4096 : ∀ (block_hash : List Nat) (seed nonce : Nat)
    (merkle_root : List Nat) (target : Nat),
    (calculate_memory_size block_hash seed nonce merkle_root target false).1 = 4096 ∧
    fill_memory block_hash 4096 = chachaFillBytes block_hash 4096 ∧
    (memHashFinalMemSize block_hash seed nonce merkle_root target = 4096 ∨
      (4096000 ≤ memHashFinalMemSize block_hash seed nonce merkle_root target ∧
       memHashFinalMemSize block_hash seed nonce merkle_root target ≤ 8190976)) := by
  intro bh seed nonce mr t
  refine ⟨rfl, rfl, ?_⟩
  by_cases h1 : memHashPreliminary bh seed nonce mr t ≤ uadd256 t (closenessThreshold t)
  · by_cases h2 : (calculate_memory_size bh seed nonce mr t true).1 ≤ 8 * 1024 * 1024
    · right
      rw [memHashFinalMemSize_close bh seed nonce mr t h1 h2]
      exact close_size_bounds bh seed nonce mr t
    · left
      simp only [memHashFinalMemSize]
      rw [if_pos h1, if_neg h2]
      rfl
  · left
    simp only [memHashFinalMemSize]
    rw [if_neg h1]
    rfl
